import Mathlib

/-!
# The Aminoac message-board worker

A shallow embedding of `src/cloudflare-workers.js`: the router `fetch`, the two
handlers `handleGetMessages` and `handlePostMessage`, and the parts of the
platform they call (the `Response` constructor, `RegExp.prototype.test`,
`Date.prototype.toISOString`, and the two SQL statements run on the D1 binding
`env.User_Aminoac`).

Conventions of the embedding.

* A JavaScript string is a Lean `String`.  The one pattern of the source only
  separates whitespace, `@`, `.` and everything else, and a character outside
  the Basic Multilingual Plane is two UTF-16 code units that both fall under
  "everything else", so matching by code point and by code unit agree.
* A JSON number is an `Int`: the embedding covers the integers a double holds
  exactly; fractions and exponents are outside it.
* Awaiting is sequencing: one invocation runs from the request to its response,
  the table is threaded through, and the statements it issued are recorded.
-/

namespace MessageBoard

/-! ## JSON values -/

/-- The values `JSON.parse` produces.  The members of an object are kept in
the order of the text. -/
inductive Json where
  | null
  | bool (b : Bool)
  | num (n : Int)
  | str (s : String)
  | arr (items : List Json)
  | obj (members : List (String × Json))

/-- The value of a variable of the worker: a JSON value, or `undefined`
(`none`), which is what reading a missing property gives. -/
abbrev JsVal := Option Json

/-- ToBoolean of a JSON value: `null`, `false`, `0` and `""` are falsy, every
array and every object is truthy. -/
def Json.truthy : Json → Bool
  | .null => false
  | .bool b => b
  | .num n => n != 0
  | .str s => s != ""
  | .arr _ => true
  | .obj _ => true

/-- ToBoolean of a variable: `undefined` is falsy. -/
def truthy : JsVal → Bool
  | none => false
  | some v => v.truthy

/-- Whether an object with these members has an own property `key`. -/
def hasOwn (key : String) (members : List (String × Json)) : Bool :=
  members.any (fun member => member.1 == key)

mutual
/-- ToString of a JSON value (`String(v)`), or the message of the `TypeError`
it throws.  An array is its elements joined by commas.  An object is
`[object Object]`, unless it has an own property `toString`: no JSON value is
callable, the own property hides `Object.prototype.toString`, and the
conversion to a primitive throws. -/
def Json.toText : Json → Except String String
  | .null => .ok "null"
  | .bool b => .ok (if b then "true" else "false")
  | .num n => .ok (toString n)
  | .str s => .ok s
  | .arr items => Json.joinText items
  | .obj members =>
    if hasOwn "toString" members then .error "Cannot convert object to primitive value"
    else .ok "[object Object]"
termination_by structural v => v
/-- The text `Array.prototype.join` gives with the separator `,`: a `null`
element contributes the empty string, the elements are converted from left to
right. -/
def Json.joinText : List Json → Except String String
  | [] => .ok ""
  | v :: rest =>
    match (match v with
      | .null => Except.ok ""
      | w => Json.toText w) with
    | .error e => .error e
    | .ok first =>
      match rest with
      | [] => .ok first
      | _ :: _ =>
        match Json.joinText rest with
        | .error e => .error e
        | .ok others => .ok (first ++ "," ++ others)
termination_by structural l => l
end

/-- ToString of a variable. -/
def toText : JsVal → Except String String
  | none => .ok "undefined"
  | some v => v.toText

/-- The own property `key` among the members of an object: with a repeated
key `JSON.parse` keeps the last one. -/
def lookupMember (key : String) : List (String × Json) → JsVal
  | [] => none
  | (k, v) :: rest =>
    match lookupMember key rest with
    | some w => some w
    | none => if k = key then some v else none

/-- Reading `value.key`, for one of the keys `name`, `email`, `message`, on a
value other than `null`: only an object can have such a property; a boolean,
number, string or array has none under these names. -/
def Json.prop (key : String) : Json → JsVal
  | .obj members => lookupMember key members
  | _ => none

/-! ## Regular expressions -/

/-- An item of a bracketed character class. -/
inductive ClassItem where
  /-- The escape `\s`. -/
  | whitespace
  /-- A literal character. -/
  | char (c : Char)

/-- A term of a pattern; a pattern is a sequence of terms. -/
inductive Node where
  /-- The assertion `^` (no `m` flag: only the start of the input). -/
  | inputStart
  /-- The assertion `$` (no `m` flag: only the end of the input). -/
  | inputEnd
  /-- A literal character, also an escaped one such as `\.`. -/
  | char (c : Char)
  /-- A negated class under `+`: `[^...]+`. -/
  | negatedClassPlus (items : List ClassItem)

/-- A regular expression without flags. -/
abbrev RegExp := List Node

/-- The characters `\s` matches: WhiteSpace and LineTerminator of ECMAScript. -/
def isWhiteSpace (c : Char) : Bool :=
  let n := c.toNat
  n == 0x09 || n == 0x0A || n == 0x0B || n == 0x0C || n == 0x0D || n == 0x20 ||
  n == 0xA0 || n == 0x1680 || (0x2000 ≤ n && n ≤ 0x200A) || n == 0x2028 ||
  n == 0x2029 || n == 0x202F || n == 0x205F || n == 0x3000 || n == 0xFEFF

/-- Whether a class item covers the character. -/
def ClassItem.covers (c : Char) : ClassItem → Bool
  | .whitespace => isWhiteSpace c
  | .char d => c == d

/-- Whether `[^items]` matches the character. -/
def negatedClass (items : List ClassItem) (c : Char) : Bool :=
  !(items.any (ClassItem.covers c))

/-- The quantifier `+` on a one-character matcher `ok`, followed by the
continuation `k`: consume one or more characters that `ok` accepts, longest
first, and backtrack until `k` accepts the rest. -/
def plusLoop (ok : Char → Bool) (k : List Char → Bool) : List Char → Bool
  | [] => false
  | c :: rest => ok c && (plusLoop ok k rest || k rest)

/-- Match the pattern at the current position.  `atStart` tells whether that
position is the start of the input. -/
def matchHere : RegExp → Bool → List Char → Bool
  | [], _, _ => true
  | .inputStart :: p, atStart, s => atStart && matchHere p atStart s
  | .inputEnd :: p, atStart, s => s.isEmpty && matchHere p atStart s
  | .char c :: p, _, s =>
    match s with
    | [] => false
    | x :: rest => x == c && matchHere p false rest
  | .negatedClassPlus items :: p, _, s =>
    plusLoop (negatedClass items) (matchHere p false) s

/-- Search for a match at the current position or at any later one. -/
def searchFrom (re : RegExp) : Bool → List Char → Bool
  | atStart, [] => matchHere re atStart []
  | atStart, c :: rest => matchHere re atStart (c :: rest) || searchFrom re false rest

/-- The method `RegExp.prototype.test` of a pattern without the `g` or `y`
flag: whether the pattern matches somewhere in the string. -/
def RegExp.test (re : RegExp) (s : String) : Bool :=
  searchFrom re true s.data

/-! ## Responses -/

/-- The body of a response. -/
inductive Body where
  /-- No body (`null`). -/
  | empty
  /-- A string written in the source. -/
  | text (s : String)
  /-- The string `JSON.stringify(v)`. -/
  | json (v : Json)

/-- The second argument of `new Response`: `status` is `none` when the literal
has no `status` key. -/
structure ResponseInit where
  status : Option Nat
  headers : List (String × String)

/-- A response: status, headers in order, body. -/
structure Response where
  status : Nat
  headers : List (String × String)
  body : Body

/-- Lower-case form of a header name (names compare without regard to case). -/
def lowerName (name : String) : List Char :=
  name.data.map Char.toLower

/-- Whether a header list has a header of that name. -/
def hasHeader (headers : List (String × String)) (name : String) : Bool :=
  headers.any (fun h => lowerName h.1 == lowerName name)

/-- The constructor `new Response(body, init)`: the status defaults to 200, and
a string body with no `Content-Type` among the given headers gets
`text/plain;charset=UTF-8`. -/
def newResponse (body : Body) (init : ResponseInit) : Response :=
  let headers :=
    match body with
    | .empty => init.headers
    | _ =>
      if hasHeader init.headers "Content-Type" then init.headers
      else init.headers ++ [("Content-Type", "text/plain;charset=UTF-8")]
  ⟨init.status.getD 200, headers, body⟩

/-! ## The clock -/

/-- Decimal text of `n`, padded on the left with zeros to `width` digits. -/
def zeroPad (width n : Nat) : String :=
  let digits := toString n
  String.mk (List.replicate (width - digits.length) '0') ++ digits

/-- Year, month and day of the proleptic Gregorian calendar for a number of
days since 1970-01-01. -/
def civilFromDays (days : Nat) : Nat × Nat × Nat :=
  let z := days + 719468
  let era := z / 146097
  let doe := z % 146097
  let yoe := (doe - doe / 1460 + doe / 36524 - doe / 146096) / 365
  let doy := doe - (365 * yoe + yoe / 4 - yoe / 100)
  let mp := (5 * doy + 2) / 153
  let d := doy - (153 * mp + 2) / 5 + 1
  let m := if mp < 10 then mp + 3 else mp - 9
  let y := yoe + era * 400
  (if m ≤ 2 then y + 1 else y, m, d)

/-- The text `new Date(t).toISOString()` for a time value `t` in milliseconds
since the epoch (the reading of the clock, not before 1970): the form
`YYYY-MM-DDTHH:mm:ss.sssZ`, with `+YYYYYY` for a year after 9999. -/
def toISOString (t : Nat) : String :=
  let ymd := civilFromDays (t / 86400000)
  let ms := t % 86400000
  let year := if ymd.1 ≤ 9999 then zeroPad 4 ymd.1 else "+" ++ zeroPad 6 ymd.1
  year ++ "-" ++ zeroPad 2 ymd.2.1 ++ "-" ++ zeroPad 2 ymd.2.2 ++ "T" ++
    zeroPad 2 (ms / 3600000) ++ ":" ++ zeroPad 2 (ms / 60000 % 60) ++ ":" ++
    zeroPad 2 (ms / 1000 % 60) ++ "." ++ zeroPad 3 (ms % 1000) ++ "Z"

/-! ## The D1 binding -/

/-- A row of the table `messages`: the `id` the store assigned and the four
column values as the store keeps them and `results` lists them (a text as a
string, a blob as the array of its bytes, NULL as `null`). -/
structure Row where
  id : Nat
  name : Json
  email : Json
  message : Json
  created_at : String

/-- The table `messages`: its rows in the order of their insertion. -/
abbrev Table := List Row

/-- The two statements the worker prepares. -/
inductive Sql where
  /-- `SELECT id, name, email, message, created_at FROM messages
  ORDER BY created_at DESC LIMIT 20`. -/
  | selectLatest
  /-- `INSERT INTO messages (name, email, message, created_at)
  VALUES (?, ?, ?, ?)`. -/
  | insertMessage
  deriving DecidableEq

/-- The binding `env.User_Aminoac` as one invocation sees it: the table, and
whether the statement run through the binding fails, `failure = some e`
meaning that running it throws an `Error` whose message is `e` and changes
nothing. -/
structure D1Database where
  messages : Table
  failure : Option String

/-- The argument `env` of `fetch`. -/
structure Env where
  User_Aminoac : D1Database

/-- Order of two texts under the collation BINARY (by code point): `a ≤ b`. -/
def textLe : List Char → List Char → Bool
  | [], _ => true
  | _ :: _, [] => false
  | a :: as, b :: bs => a.toNat < b.toNat || (a.toNat == b.toNat && textLe as bs)

/-- Whether `r` may stand before `q` under `ORDER BY created_at DESC`. -/
def Row.notOlder (r q : Row) : Bool :=
  textLe q.created_at.data r.created_at.data

/-- Insert a row into a list ordered by `created_at` descending, before the
first row that is not newer than it. -/
def insertDesc (r : Row) : List Row → List Row
  | [] => [r]
  | q :: rest => if r.notOlder q then r :: q :: rest else q :: insertDesc r rest

/-- `ORDER BY created_at DESC`: rows with equal `created_at` keep the order of
their insertion, one of the orders the store may choose for ties. -/
def orderByCreatedAtDesc : Table → List Row
  | [] => []
  | r :: rest => insertDesc r (orderByCreatedAtDesc rest)

/-- The row limit written in the SELECT statement. -/
def selectLimit : Nat := 20

/-- The rows the SELECT statement returns on a table. -/
def selectLatest (t : Table) : List Row :=
  (orderByCreatedAtDesc t).take selectLimit

/-- Largest `id` of a table, 0 for an empty one. -/
def maxId : Table → Nat
  | [] => 0
  | r :: rest => max r.id (maxId rest)

/-- The call `prepare(SELECT ...).all()`: the rows of `results`, or the message
of the error thrown. -/
def D1Database.all (db : D1Database) : Except String (List Row) :=
  match db.failure with
  | some e => .error e
  | none => .ok (selectLatest db.messages)

/-- Whether a value is a number from 0 to 255. -/
def isByte : Json → Bool
  | .num n => decide (0 ≤ n) && decide (n < 256)
  | _ => false

/-- The `Error` D1 throws for a value it does not support: its message quotes
`typeof value` and the text of the value, and converting the value to that
text may itself throw. -/
def typeError (rType : String) (text : Except String String) : Except String Json :=
  match text with
  | .error e => .error e
  | .ok t =>
    .error ("D1_TYPE_ERROR: Type \x27" ++ rType ++ "\x27 not supported for value \x27" ++ t ++
      "\x27")

/-- What `bind` makes of one value: a number, a string and `null` are taken as
they are, a boolean becomes 1 or 0, an array of bytes is taken as a blob;
`undefined`, any other array and any object are refused. -/
def bindValue : JsVal → Except String Json
  | none => typeError "undefined" (.ok "undefined")
  | some (.num n) => .ok (.num n)
  | some (.str s) => .ok (.str s)
  | some (.bool b) => .ok (.num (if b then 1 else 0))
  | some .null => .ok .null
  | some (.arr items) =>
    if items.all isByte then .ok (.arr items) else typeError "object" (Json.arr items).toText
  | some (.obj members) => typeError "object" (Json.obj members).toText

/-- The call `prepare(INSERT ...).bind(name, email, message, created_at)`: the
four values of the statement, or the message of the error thrown for the first
value D1 does not support. -/
def D1Database.bind (name email message : JsVal) (created_at : String) :
    Except String (Json × Json × Json × String) :=
  match bindValue name with
  | .error e => .error e
  | .ok n =>
    match bindValue email with
    | .error e => .error e
    | .ok e =>
      match bindValue message with
      | .error e => .error e
      | .ok m => .ok (n, e, m, created_at)

/-- The characters of a list without its trailing zeros, `0` if none is left. -/
def stripZeros (digits : List Char) : List Char :=
  match (digits.reverse.dropWhile (fun c => c == '0')).reverse with
  | [] => ['0']
  | kept => kept

/-- The text SQLite gives the REAL of an integer (the format `%!.15g`):
the digits and `.0` below 10^15, and from there on 15 significant digits with
an exponent. -/
def realText (n : Int) : String :=
  let sign := if n < 0 then "-" else ""
  let a := n.natAbs
  if a < 10 ^ 15 then sign ++ toString a ++ ".0"
  else
    let k := (toString a).length
    let m := a / 10 ^ (k - 15)
    let next := a / 10 ^ (k - 16) % 10
    let rounded := if next < 5 then m else m + 1
    let mantissa := if rounded = 10 ^ 15 then 10 ^ 14 else rounded
    let exponent := if rounded = 10 ^ 15 then k else k - 1
    let digits := (toString mantissa).data
    sign ++ String.mk (digits.take 1) ++ "." ++ String.mk (stripZeros (digits.drop 1)) ++
      "e+" ++ zeroPad 2 exponent

/-- What a column of TEXT affinity keeps of a bound value: a number, bound as
a REAL, is converted to its text; a text, a blob and NULL are kept. -/
def stored : Json → Json
  | .num n => .str (realText n)
  | v => v

/-- The call `.run()` on the bound INSERT statement: the new
`meta.last_row_id` and the table with the new row, or the message of the error
thrown.  The store assigns the next `id` after the largest one. -/
def D1Database.run (db : D1Database) (values : Json × Json × Json × String) :
    Except String (Nat × Table) :=
  match db.failure with
  | some e => .error e
  | none =>
    let id := maxId db.messages + 1
    .ok (id, db.messages ++
      [⟨id, stored values.1, stored values.2.1, stored values.2.2.1, values.2.2.2⟩])

/-- A row as the object of `results` that `JSON.stringify` writes. -/
def Row.toJson (r : Row) : Json :=
  .obj [("id", .num r.id), ("name", r.name), ("email", r.email),
    ("message", r.message), ("created_at", .str r.created_at)]

/-! ## The worker -/

/-- The object `new URL(request.url)`, of which the worker reads `pathname`. -/
structure URL where
  pathname : String

/-- An incoming request: its method, its URL, and what `await request.json()`
gives, the parsed body or the message of the error thrown while parsing. -/
structure Request where
  method : String
  url : URL
  json : Except String Json

/-- What one invocation leaves behind: the response, the table afterwards, and
the statements it ran on the binding, in order. -/
structure Outcome where
  response : Response
  messages : Table
  statements : List Sql

/-- An error thrown inside a `try` block: its `message`, and the statements run
before it was thrown (the failing one included). -/
structure Thrown where
  message : String
  statements : List Sql

/-- The constant `corsHeaders` of `fetch`. -/
def corsHeaders : List (String × String) :=
  [("Access-Control-Allow-Origin", "*"),
   ("Access-Control-Allow-Methods", "GET, POST, OPTIONS"),
   ("Access-Control-Allow-Headers", "Content-Type")]

/-- The object literal of the headers of a JSON response: `Content-Type`
followed by the spread of `corsHeaders`. -/
def jsonHeaders (corsHeaders : List (String × String)) : List (String × String) :=
  ("Content-Type", "application/json") :: corsHeaders

/-- The `try` block of `handleGetMessages`. -/
def handleGetMessages.tryBlock (env : Env) (corsHeaders : List (String × String)) :
    Except Thrown Outcome :=
  match env.User_Aminoac.all with
  | .error e => .error ⟨e, [.selectLatest]⟩
  | .ok results =>
    .ok ⟨newResponse (.json (.obj [("messages", .arr (results.map Row.toJson))]))
          ⟨none, jsonHeaders corsHeaders⟩,
        env.User_Aminoac.messages, [.selectLatest]⟩

/-- The function `handleGetMessages`: the `try` block, and the `catch` clause
that answers 500 with the message of the error. -/
def handleGetMessages (env : Env) (corsHeaders : List (String × String)) : Outcome :=
  match handleGetMessages.tryBlock env corsHeaders with
  | .ok out => out
  | .error error =>
    ⟨newResponse
        (.json (.obj [("error", .str "Failed to fetch messages"),
          ("details", .str error.message)]))
        ⟨some 500, jsonHeaders corsHeaders⟩,
      env.User_Aminoac.messages, error.statements⟩

/-- The pattern `/^[^\s@]+@[^\s@]+\.[^\s@]+$/` of `handlePostMessage`. -/
def emailRegex : RegExp :=
  [.inputStart,
   .negatedClassPlus [.whitespace, .char '@'],
   .char '@',
   .negatedClassPlus [.whitespace, .char '@'],
   .char '.',
   .negatedClassPlus [.whitespace, .char '@'],
   .inputEnd]

/-- The destructuring `const { name, email, message } = value`: it throws a
`TypeError` on `null` (the message is the wording of V8) and reads the three
properties of any other value. -/
def destructure : Json → Except String (JsVal × JsVal × JsVal)
  | .null =>
    .error "Cannot destructure property \x27name\x27 of \x27(intermediate value)\x27 as it is null."
  | value => .ok (value.prop "name", value.prop "email", value.prop "message")

/-- The `try` block of `handlePostMessage`; `now` is the reading of the clock
that `new Date()` takes.  The call `emailRegex.test(email)` first converts its
argument to a string, which may throw. -/
def handlePostMessage.tryBlock (request : Request) (env : Env)
    (corsHeaders : List (String × String)) (now : Nat) : Except Thrown Outcome :=
  match request.json with
  | .error e => .error ⟨e, []⟩
  | .ok parsed =>
    match destructure parsed with
    | .error e => .error ⟨e, []⟩
    | .ok (name, email, message) =>
      if !truthy name || !truthy email || !truthy message then
        .ok ⟨newResponse
              (.json (.obj [("error", .str "Name, email, and message are required")]))
              ⟨some 400, jsonHeaders corsHeaders⟩,
            env.User_Aminoac.messages, []⟩
      else
      match toText email with
      | .error e => .error ⟨e, []⟩
      | .ok emailText =>
      if !emailRegex.test emailText then
        .ok ⟨newResponse (.json (.obj [("error", .str "Invalid email format")]))
              ⟨some 400, jsonHeaders corsHeaders⟩,
            env.User_Aminoac.messages, []⟩
      else
        match D1Database.bind name email message (toISOString now) with
        | .error e => .error ⟨e, []⟩
        | .ok values =>
          match env.User_Aminoac.run values with
          | .error e => .error ⟨e, [.insertMessage]⟩
          | .ok (last_row_id, messages) =>
            .ok ⟨newResponse
                  (.json (.obj [("success", .bool true),
                    ("message", .str "Message submitted successfully"),
                    ("id", .num last_row_id)]))
                  ⟨some 201, jsonHeaders corsHeaders⟩,
                messages, [.insertMessage]⟩

/-- The function `handlePostMessage`: the `try` block, and the `catch` clause
that answers 500 with the message of the error. -/
def handlePostMessage (request : Request) (env : Env)
    (corsHeaders : List (String × String)) (now : Nat) : Outcome :=
  match handlePostMessage.tryBlock request env corsHeaders now with
  | .ok out => out
  | .error error =>
    ⟨newResponse
        (.json (.obj [("error", .str "Failed to submit message"),
          ("details", .str error.message)]))
        ⟨some 500, jsonHeaders corsHeaders⟩,
      env.User_Aminoac.messages, error.statements⟩

/-- The method `fetch` of the worker; `now` is the reading of the clock during
the invocation. -/
def fetch (request : Request) (env : Env) (now : Nat) : Outcome :=
  if request.method = "OPTIONS" then
    ⟨newResponse .empty ⟨none, corsHeaders⟩, env.User_Aminoac.messages, []⟩
  else
    let notFound : Outcome :=
      ⟨newResponse (.text "Not Found") ⟨some 404, []⟩, env.User_Aminoac.messages, []⟩
    if request.url.pathname = "/api/messages" then
      if request.method = "GET" then
        handleGetMessages env corsHeaders
      else if request.method = "POST" then
        handlePostMessage request env corsHeaders now
      else notFound
    else notFound

/-! ## Shapes, counts and concrete inputs used by the statements -/

/-- The shape of an email as the specification words it: one or more
characters that are neither whitespace nor `@`, then `@`, then one or more
characters that are neither whitespace nor `@`, then `.`, then one or more
characters that are not whitespace. -/
def specEmailShape (email : String) : Prop :=
  ∃ l d t : List Char, email.data = l ++ '@' :: (d ++ '.' :: t) ∧
    l ≠ [] ∧ (∀ c ∈ l, isWhiteSpace c = false ∧ c ≠ '@') ∧
    d ≠ [] ∧ (∀ c ∈ d, isWhiteSpace c = false ∧ c ≠ '@') ∧
    t ≠ [] ∧ (∀ c ∈ t, isWhiteSpace c = false)

/-- The shape of the specification with the last run also free of `@`: one or
more characters that are neither whitespace nor `@`, then `@`, then one or
more such characters, then `.`, then one or more such characters. -/
def strictEmailShape (email : String) : Prop :=
  ∃ l d t : List Char, email.data = l ++ '@' :: (d ++ '.' :: t) ∧
    l ≠ [] ∧ (∀ c ∈ l, isWhiteSpace c = false ∧ c ≠ '@') ∧
    d ≠ [] ∧ (∀ c ∈ d, isWhiteSpace c = false ∧ c ≠ '@') ∧
    t ≠ [] ∧ (∀ c ∈ t, isWhiteSpace c = false ∧ c ≠ '@')

/-- The number of rows of a table whose `created_at` is not before the given
one in the order of the SELECT statement. -/
def countNotOlder (t : Table) (created_at : String) : Nat :=
  (t.filter (fun r => textLe created_at.data r.created_at.data)).length

/-- A list of rows is in the order of `created_at` descending. -/
def Descending (l : List Row) : Prop :=
  l.Pairwise (fun r q => r.notOlder q = true)

/-- The response of a routing miss. -/
def notFoundResponse : Response :=
  newResponse (.text "Not Found") ⟨some 404, []⟩

/-- The JSON response with one `error` member. -/
def errorResponse (status : Nat) (error : String) : Response :=
  newResponse (.json (.obj [("error", .str error)])) ⟨some status, jsonHeaders corsHeaders⟩

/-- The JSON response of a `catch` clause. -/
def failureResponse (error details : String) : Response :=
  newResponse (.json (.obj [("error", .str error), ("details", .str details)]))
    ⟨some 500, jsonHeaders corsHeaders⟩

/-- The response of a successful submission. -/
def createdResponse (id : Nat) : Response :=
  newResponse
    (.json (.obj [("success", .bool true), ("message", .str "Message submitted successfully"),
      ("id", .num id)]))
    ⟨some 201, jsonHeaders corsHeaders⟩

/-- How the table keeps a truthy value that `bind` takes: a non-empty string
and an array of bytes as they are, `true` as the text `1.0`, a number other
than 0 as a text, which below 10^15 is its digits followed by `.0`. -/
def KeptAs (submitted : JsVal) (kept : Json) : Prop :=
  (∃ s, s ≠ "" ∧ submitted = some (.str s) ∧ kept = .str s) ∨
  (∃ bytes, bytes.all isByte = true ∧ submitted = some (.arr bytes) ∧ kept = .arr bytes) ∨
  (submitted = some (.bool true) ∧ kept = .str "1.0") ∨
  (∃ n text, n ≠ 0 ∧ submitted = some (.num n) ∧ kept = .str text ∧
    (n.natAbs < 10 ^ 15 → text = toString n ++ ".0"))

/-- A store with an empty table that answers every statement. -/
def emptyEnv : Env := ⟨⟨[], none⟩⟩

/-- The body of the example submission of the specification. -/
def aliceBody : Json :=
  .obj [("name", .str "Alice"), ("email", .str "alice@example.com"), ("message", .str "Hello")]

/-- The request `POST /api/messages` with `aliceBody`. -/
def postAlice : Request := ⟨"POST", ⟨"/api/messages"⟩, .ok aliceBody⟩

/-- The request `POST /api/messages` carrying the parsed body `body`. -/
def postOf (body : Json) : Request := ⟨"POST", ⟨"/api/messages"⟩, .ok body⟩

/-- A request without a body, for which `request.json()` throws. -/
def bare (method pathname : String) : Request :=
  ⟨method, ⟨pathname⟩, .error "Unexpected end of JSON input"⟩

/-- A table of twenty rows stored at 2030-01-01T00:00:00.000Z. -/
def crowdedTable : Table :=
  (List.range 20).map fun i =>
    ⟨i + 1, .str "Zed", .str "zed@example.org", .str "Earlier", toISOString 1893456000000⟩

/-- A store holding `crowdedTable` that answers every statement. -/
def crowdedEnv : Env := ⟨⟨crowdedTable, none⟩⟩

/-- A reading of the clock in November 2026. -/
def clock2026 : Nat := 1794000300123

/-! ## Lemmas and the claims -/

theorem negatedClass_email (c : Char) :
    negatedClass [.whitespace, .char '@'] c = true ↔ isWhiteSpace c = false ∧ c ≠ '@' := by
  simp [negatedClass, ClassItem.covers]

theorem plusLoop_iff (ok : Char → Bool) (k : List Char → Bool) (s : List Char) :
    plusLoop ok k s = true ↔
      ∃ a b, s = a ++ b ∧ a ≠ [] ∧ (∀ c ∈ a, ok c = true) ∧ k b = true := by
  induction s with
  | nil => simp [plusLoop]
  | cons c rest ih =>
    simp only [plusLoop, Bool.and_eq_true, Bool.or_eq_true, ih]
    constructor
    · rintro ⟨hc, ⟨a, b, rfl, -, hall, hk⟩ | hk⟩
      · refine ⟨c :: a, b, rfl, by simp, ?_, hk⟩
        intro x hx
        rcases List.mem_cons.mp hx with rfl | hx
        · exact hc
        · exact hall x hx
      · refine ⟨[c], rest, rfl, by simp, ?_, hk⟩
        intro x hx
        rcases List.mem_cons.mp hx with rfl | hx
        · exact hc
        · cases hx
    · rintro ⟨a, b, hs, ha, hall, hk⟩
      cases a with
      | nil => exact absurd rfl ha
      | cons x a1 =>
        rw [List.cons_append, List.cons.injEq] at hs
        obtain ⟨rfl, rfl⟩ := hs
        refine ⟨hall c (List.mem_cons_self _ _), ?_⟩
        cases a1 with
        | nil => exact Or.inr hk
        | cons y a2 =>
          exact Or.inl ⟨y :: a2, b, rfl, by simp,
            fun z hz => hall z (List.mem_cons_of_mem _ hz), hk⟩

theorem searchFrom_inputStart_false (p : RegExp) (s : List Char) :
    searchFrom (.inputStart :: p) false s = false := by
  induction s with
  | nil => simp [searchFrom, matchHere]
  | cons c rest ih => simp [searchFrom, matchHere, ih]

theorem test_inputStart (p : RegExp) (s : String) :
    RegExp.test (.inputStart :: p) s = matchHere p true s.data := by
  unfold RegExp.test
  cases h : s.data with
  | nil => simp [searchFrom, matchHere]
  | cons c rest => simp [searchFrom, matchHere, searchFrom_inputStart_false]

theorem matchHere_char (c : Char) (p : RegExp) (b : Bool) (s : List Char) :
    matchHere (.char c :: p) b s = true ↔ ∃ rest, s = c :: rest ∧ matchHere p false rest = true := by
  cases s with
  | nil => simp [matchHere]
  | cons x rest =>
    simp only [matchHere, Bool.and_eq_true, beq_iff_eq, List.cons.injEq]
    constructor
    · rintro ⟨rfl, h⟩; exact ⟨rest, ⟨rfl, rfl⟩, h⟩
    · rintro ⟨r, ⟨rfl, rfl⟩, h⟩; exact ⟨rfl, h⟩

theorem matchHere_plus (items : List ClassItem) (p : RegExp) (b : Bool) (s : List Char) :
    matchHere (.negatedClassPlus items :: p) b s =
      plusLoop (negatedClass items) (matchHere p false) s := by
  cases s <;> rfl

theorem matchHere_inputEnd (b : Bool) (s : List Char) :
    matchHere [.inputEnd] b s = true ↔ s = [] := by
  cases s <;> simp [matchHere]

/-- The pattern of the source accepts exactly the strings of the strict
shape. -/
theorem emailRegex_test_iff (email : String) :
    emailRegex.test email = true ↔ strictEmailShape email := by
  unfold emailRegex strictEmailShape
  rw [test_inputStart]
  simp only [matchHere_plus, plusLoop_iff, matchHere_char, negatedClass_email,
    matchHere_inputEnd]
  constructor
  · rintro ⟨l, b, hs, hl, hlc, r1, rfl, d, b2, rfl, hd, hdc, r2, rfl, t, b3, rfl, ht, htc, rfl⟩
    exact ⟨l, d, t, by simpa using hs, hl, hlc, hd, hdc, ht, htc⟩
  · rintro ⟨l, d, t, hs, hl, hlc, hd, hdc, ht, htc⟩
    exact ⟨l, _, hs, hl, hlc, _, rfl, d, _, rfl, hd, hdc, _, rfl, t, [], by simp, ht, htc, rfl⟩

theorem textLe_refl (a : List Char) : textLe a a = true := by
  induction a with
  | nil => rfl
  | cons x xs ih => simp [textLe, ih]

theorem textLe_total (a b : List Char) : textLe a b = true ∨ textLe b a = true := by
  induction a generalizing b with
  | nil => exact Or.inl rfl
  | cons x xs ih =>
    cases b with
    | nil => exact Or.inr rfl
    | cons y ys =>
      simp only [textLe, Bool.or_eq_true, Bool.and_eq_true, decide_eq_true_eq, beq_iff_eq]
      rcases Nat.lt_trichotomy x.toNat y.toNat with h | h | h
      · exact Or.inl (Or.inl h)
      · rcases ih ys with h2 | h2
        · exact Or.inl (Or.inr ⟨h, h2⟩)
        · exact Or.inr (Or.inr ⟨h.symm, h2⟩)
      · exact Or.inr (Or.inl h)

theorem textLe_trans {a b c : List Char} (hab : textLe a b = true) (hbc : textLe b c = true) :
    textLe a c = true := by
  induction a generalizing b c with
  | nil => rfl
  | cons x xs ih =>
    cases b with
    | nil => simp [textLe] at hab
    | cons y ys =>
      cases c with
      | nil => simp [textLe] at hbc
      | cons z zs =>
        simp only [textLe, Bool.or_eq_true, Bool.and_eq_true, decide_eq_true_eq,
          beq_iff_eq] at hab hbc ⊢
        rcases hab with h1 | ⟨h1, h1r⟩
        · rcases hbc with h2 | ⟨h2, -⟩
          · exact Or.inl (by omega)
          · exact Or.inl (by omega)
        · rcases hbc with h2 | ⟨h2, h2r⟩
          · exact Or.inl (by omega)
          · exact Or.inr ⟨by omega, ih h1r h2r⟩

theorem notOlder_total (r q : Row) : r.notOlder q = true ∨ q.notOlder r = true :=
  (textLe_total _ _).symm

theorem notOlder_trans {r q p : Row} (h1 : r.notOlder q = true) (h2 : q.notOlder p = true) :
    r.notOlder p = true :=
  textLe_trans h2 h1

theorem insertDesc_perm (r : Row) (l : List Row) : (insertDesc r l).Perm (r :: l) := by
  induction l with
  | nil => exact List.Perm.refl _
  | cons q rest ih =>
    unfold insertDesc
    split
    · exact List.Perm.refl _
    · exact ((List.Perm.cons q ih).trans (List.Perm.swap r q rest))

theorem insertDesc_descending (r : Row) (l : List Row) (h : Descending l) :
    Descending (insertDesc r l) := by
  induction l with
  | nil => simp [insertDesc, Descending]
  | cons q rest ih =>
    unfold Descending at h ⊢
    rw [List.pairwise_cons] at h
    unfold insertDesc
    split
    next hrq =>
      rw [List.pairwise_cons, List.pairwise_cons]
      refine ⟨?_, h.1, h.2⟩
      intro x hx
      rcases List.mem_cons.mp hx with rfl | hx
      · exact hrq
      · exact notOlder_trans hrq (h.1 x hx)
    next hrq =>
      rw [List.pairwise_cons]
      refine ⟨?_, ih h.2⟩
      intro x hx
      rcases List.mem_cons.mp ((insertDesc_perm r rest).mem_iff.mp hx) with rfl | hx
      · rcases notOlder_total x q with h1 | h1
        · exact absurd h1 hrq
        · exact h1
      · exact h.1 x hx

theorem orderByCreatedAtDesc_perm (t : Table) : (orderByCreatedAtDesc t).Perm t := by
  induction t with
  | nil => exact List.Perm.refl _
  | cons r rest ih =>
    exact (insertDesc_perm r _).trans (List.Perm.cons r ih)

theorem orderByCreatedAtDesc_descending (t : Table) : Descending (orderByCreatedAtDesc t) := by
  induction t with
  | nil => exact List.Pairwise.nil
  | cons r rest ih => exact insertDesc_descending r _ ih

theorem selectLatest_length (t : Table) :
    (selectLatest t).length = min selectLimit t.length := by
  simp [selectLatest, (orderByCreatedAtDesc_perm t).length_eq]

theorem selectLatest_descending (t : Table) : Descending (selectLatest t) :=
  List.Pairwise.sublist (List.take_sublist _ _) (orderByCreatedAtDesc_descending t)

/-- The rows left out of the listing are a rest of the table none of which is
newer than a listed row. -/
theorem selectLatest_newest (t : Table) :
    ∃ rest, (selectLatest t ++ rest).Perm t ∧
      ∀ r ∈ selectLatest t, ∀ q ∈ rest, r.notOlder q = true := by
  refine ⟨(orderByCreatedAtDesc t).drop selectLimit, ?_, ?_⟩
  · unfold selectLatest
    rw [List.take_append_drop]
    exact orderByCreatedAtDesc_perm t
  · have h := orderByCreatedAtDesc_descending t
    unfold Descending at h
    rw [← List.take_append_drop selectLimit (orderByCreatedAtDesc t), List.pairwise_append] at h
    exact h.2.2

theorem selectLatest_all (t : Table) (h : t.length ≤ selectLimit) :
    (selectLatest t).Perm t := by
  unfold selectLatest
  rw [List.take_of_length_le (by rw [(orderByCreatedAtDesc_perm t).length_eq]; exact h)]
  exact orderByCreatedAtDesc_perm t

/-- A row appended to a table is listed when fewer rows than the limit are not
older than it. -/
theorem mem_selectLatest_append (t : Table) (row : Row)
    (h : countNotOlder t row.created_at < selectLimit) :
    row ∈ selectLatest (t ++ [row]) := by
  have hperm := orderByCreatedAtDesc_perm (t ++ [row])
  have hmem : row ∈ orderByCreatedAtDesc (t ++ [row]) :=
    hperm.mem_iff.mpr (by simp)
  obtain ⟨A, B, hAB⟩ := List.append_of_mem hmem
  have hdesc := orderByCreatedAtDesc_descending (t ++ [row])
  unfold Descending at hdesc
  rw [hAB, List.pairwise_append] at hdesc
  have hA : ∀ a ∈ A, a.notOlder row = true := fun a ha => hdesc.2.2 a ha row (by simp)
  have hrest : (A ++ B).Perm t := by
    have h1 : (row :: (A ++ B)).Perm (row :: t) := by
      refine (List.perm_middle.symm).trans ?_
      rw [← hAB]
      exact hperm.trans (List.perm_append_singleton row t)
    exact h1.cons_inv
  have hlen : A.length < selectLimit := by
    have h2 : A.length ≤ countNotOlder t row.created_at := by
      unfold countNotOlder
      rw [← (hrest.filter _).length_eq, List.filter_append, List.length_append]
      have h3 : A.filter (fun r => textLe row.created_at.data r.created_at.data) = A :=
        List.filter_eq_self.mpr hA
      rw [h3]
      exact Nat.le_add_right _ _
    omega
  unfold selectLatest
  rw [hAB, List.take_append_eq_append_take]
  apply List.mem_append_right
  obtain ⟨k, hk⟩ : ∃ k, selectLimit - A.length = k + 1 := ⟨selectLimit - A.length - 1, by omega⟩
  rw [hk, List.take_succ_cons]
  exact List.mem_cons_self _ _

theorem textLe_iff_not_lt (a b : List Char) : textLe a b = true ↔ ¬ b < a := by
  induction a generalizing b with
  | nil =>
    simp only [textLe, true_iff]
    intro h
    cases h
  | cons x xs ih =>
    cases b with
    | nil =>
      simp only [textLe, Bool.false_eq_true, false_iff, not_not]
      exact List.Lex.nil
    | cons y ys =>
      simp only [textLe, Bool.or_eq_true, Bool.and_eq_true, decide_eq_true_eq, beq_iff_eq]
      have hyx : y < x ↔ y.toNat < x.toNat := Iff.rfl
      constructor
      · rintro (h | ⟨h, hr⟩) hlt
        · cases hlt with
          | cons h1 => omega
          | rel h1 => rw [hyx] at h1; omega
        · cases hlt with
          | cons h1 => exact (ih ys).mp hr h1
          | rel h1 => rw [hyx] at h1; omega
      · intro hlt
        rcases Nat.lt_trichotomy x.toNat y.toNat with h | h | h
        · exact Or.inl h
        · refine Or.inr ⟨h, (ih ys).mpr ?_⟩
          intro h3
          have hxy : x = y := Char.ext (UInt32.ext h)
          subst hxy
          exact hlt (List.Lex.cons h3)
        · exact absurd (List.Lex.rel (hyx.mpr h)) hlt

/-- The order of the SELECT statement is the order of strings by code point. -/
theorem textLe_iff_le (a b : String) : textLe a.data b.data = true ↔ a ≤ b := by
  rw [textLe_iff_not_lt, ← not_lt, String.lt_iff_toList_lt]
  exact Iff.rfl

theorem digitChar_ne_at (n : Nat) : Nat.digitChar n ≠ '@' := by
  rcases Nat.lt_or_ge n 16 with h | h
  · interval_cases n <;> decide
  · have hstar : Nat.digitChar n = '*' := by
      unfold Nat.digitChar
      iterate 16 rw [if_neg (by omega)]
    rw [hstar]
    decide

theorem toDigitsCore_no_at (fuel n : Nat) (ds : List Char) (h : '@' ∉ ds) :
    '@' ∉ Nat.toDigitsCore 10 fuel n ds := by
  induction fuel generalizing n ds with
  | zero => exact h
  | succ fuel ih =>
    have hd : '@' ∉ Nat.digitChar (n % 10) :: ds := by
      intro hm
      rcases List.mem_cons.mp hm with hm | hm
      · exact digitChar_ne_at _ hm.symm
      · exact h hm
    rw [Nat.toDigitsCore]
    by_cases hz : n / 10 = 0
    · simp only [hz, if_true]
      exact hd
    · simp only [hz, if_false]
      exact ih _ _ hd

theorem nat_repr_no_at (n : Nat) : '@' ∉ (toString n).data := by
  show '@' ∉ (Nat.toDigits 10 n).asString.data
  exact toDigitsCore_no_at _ _ _ (List.not_mem_nil _)

theorem int_toString_no_at (n : Int) : '@' ∉ (toString n).data := by
  cases n with
  | ofNat m => exact nat_repr_no_at m
  | negSucc m =>
    show '@' ∉ ("-" ++ toString (Nat.succ m)).data
    rw [String.data_append]
    intro hm
    rcases List.mem_append.mp hm with hm | hm
    · revert hm
      decide
    · exact nat_repr_no_at _ hm

theorem at_mem_of_test (text : String) (h : emailRegex.test text = true) :
    '@' ∈ text.data := by
  obtain ⟨l, d, t, hs, -⟩ := (emailRegex_test_iff text).mp h
  rw [hs]
  simp

theorem isByte_iff (v : Json) : isByte v = true → ∃ n, v = .num n := by
  cases v <;> simp [isByte]

/-- The text of an array of bytes has no `@`. -/
theorem joinText_bytes (items : List Json) (h : items.all isByte = true) :
    ∃ text, Json.joinText items = .ok text ∧ '@' ∉ text.data := by
  induction items with
  | nil => exact ⟨"", rfl, by decide⟩
  | cons v rest ih =>
    rw [List.all_cons, Bool.and_eq_true] at h
    obtain ⟨n, rfl⟩ := isByte_iff v h.1
    obtain ⟨others, hothers, hno⟩ := ih h.2
    cases rest with
    | nil => exact ⟨toString n, by simp [Json.joinText, Json.toText], int_toString_no_at n⟩
    | cons w rest2 =>
      have hjoin : Json.joinText (.num n :: w :: rest2) =
          .ok (toString n ++ "," ++ others) := by
        rw [Json.joinText]
        · simp only [Json.toText, hothers]
        · intro hnull
          cases hnull
      refine ⟨toString n ++ "," ++ others, hjoin, ?_⟩
      rw [String.data_append, String.data_append]
      intro hm
      rcases List.mem_append.mp hm with hm | hm
      · rcases List.mem_append.mp hm with hm | hm
        · exact int_toString_no_at n hm
        · revert hm
          decide
      · exact hno hm

/-- A truthy value whose text passes the pattern and which `bind` takes is a
string. -/
theorem email_is_string (email : JsVal) (text : String) (bound : Json)
    (ht : truthy email = true) (htext : toText email = .ok text)
    (htest : emailRegex.test text = true) (hb : bindValue email = .ok bound) :
    email = some (.str text) ∧ bound = .str text := by
  have hat := at_mem_of_test text htest
  cases email with
  | none => simp [truthy] at ht
  | some v =>
    cases v with
    | null => simp [truthy, Json.truthy] at ht
    | bool b =>
      exfalso
      cases b
      · simp [truthy, Json.truthy] at ht
      · have h2 : text = "true" := by
          simpa [toText, Json.toText] using htext.symm
        subst h2
        revert hat
        decide
    | num n =>
      exfalso
      have h2 : text = toString n := by
        simpa [toText, Json.toText] using htext.symm
      subst h2
      exact int_toString_no_at n hat
    | str s =>
      have h2 : text = s := by
        simpa [toText, Json.toText] using htext.symm
      subst h2
      refine ⟨rfl, ?_⟩
      simpa [bindValue] using hb.symm
    | arr items =>
      exfalso
      by_cases hall : items.all isByte = true
      · obtain ⟨t2, h2, hno⟩ := joinText_bytes items hall
        have h3 : Json.joinText items = .ok text := by
          simpa [toText, Json.toText] using htext
        rw [h2] at h3
        cases h3
        exact hno hat
      · have h3 : Json.toText (.arr items) = .ok text := htext
        simp [bindValue, hall, h3, typeError] at hb
    | obj members =>
      exfalso
      have h3 : Json.toText (.obj members) = .ok text := htext
      simp [bindValue, h3, typeError] at hb

/-- The falsy values: `undefined`, `null`, `false`, `0` and the empty string. -/
theorem truthy_eq_false_iff (v : JsVal) :
    truthy v = false ↔
      v = none ∨ v = some .null ∨ v = some (.bool false) ∨ v = some (.num 0) ∨
        v = some (.str "") := by
  cases v with
  | none => simp [truthy]
  | some j => cases j <;> simp [truthy, Json.truthy]

theorem toISOString_epoch : toISOString 0 = "1970-01-01T00:00:00.000Z" := by decide

theorem toISOString_leap_day :
    toISOString 951782400000 = "2000-02-29T00:00:00.000Z" := by decide

theorem toISOString_last_of_9999 :
    toISOString 253402300799999 = "9999-12-31T23:59:59.999Z" := by decide

theorem toISOString_year_10000 :
    toISOString 253402300800000 = "+010000-01-01T00:00:00.000Z" := by decide

theorem realText_five : realText 5 = "5.0" := by decide

theorem realText_exponent : realText 1234567890123456 = "1.23456789012346e+15" := by decide

theorem bindValue_object :
    bindValue (some (.obj [("a", .num 1)])) =
      .error "D1_TYPE_ERROR: Type \x27object\x27 not supported for value \x27[object Object]\x27" :=
  rfl

theorem toText_own_toString :
    toText (some (.obj [("toString", .num 1)])) =
      .error "Cannot convert object to primitive value" := rfl

theorem fetch_options (request : Request) (env : Env) (now : Nat)
    (h : request.method = "OPTIONS") :
    fetch request env now =
      ⟨newResponse .empty ⟨none, corsHeaders⟩, env.User_Aminoac.messages, []⟩ := by
  simp [fetch, h]

theorem fetch_get (request : Request) (env : Env) (now : Nat)
    (hm : request.method = "GET") (hp : request.url.pathname = "/api/messages") :
    fetch request env now = handleGetMessages env corsHeaders := by
  simp [fetch, hm, hp]

theorem fetch_post (request : Request) (env : Env) (now : Nat)
    (hm : request.method = "POST") (hp : request.url.pathname = "/api/messages") :
    fetch request env now = handlePostMessage request env corsHeaders now := by
  simp [fetch, hm, hp]

theorem fetch_notFound (request : Request) (env : Env) (now : Nat)
    (h0 : request.method ≠ "OPTIONS")
    (h : request.url.pathname ≠ "/api/messages" ∨
      (request.method ≠ "GET" ∧ request.method ≠ "POST")) :
    fetch request env now = ⟨notFoundResponse, env.User_Aminoac.messages, []⟩ := by
  rcases h with h | ⟨h1, h2⟩
  · simp [fetch, h0, h, notFoundResponse]
  · simp [fetch, h0, h1, h2, notFoundResponse]

theorem get_ok (env : Env) (h : env.User_Aminoac.failure = none) :
    handleGetMessages env corsHeaders =
      ⟨newResponse
          (.json (.obj [("messages", .arr ((selectLatest env.User_Aminoac.messages).map Row.toJson))]))
          ⟨none, jsonHeaders corsHeaders⟩,
        env.User_Aminoac.messages, [.selectLatest]⟩ := by
  simp [handleGetMessages, handleGetMessages.tryBlock, D1Database.all, h]

theorem get_failed (env : Env) (e : String) (h : env.User_Aminoac.failure = some e) :
    handleGetMessages env corsHeaders =
      ⟨failureResponse "Failed to fetch messages" e, env.User_Aminoac.messages,
        [.selectLatest]⟩ := by
  simp [handleGetMessages, handleGetMessages.tryBlock, D1Database.all, h, failureResponse]

theorem destructure_ok (body : Json) (h : body ≠ .null) :
    destructure body = .ok (body.prop "name", body.prop "email", body.prop "message") := by
  cases body <;> first | rfl | exact absurd rfl h

theorem ne_null_of_truthy_prop (body : Json) (key : String) (h : truthy (body.prop key) = true) :
    body ≠ .null := by
  rintro rfl
  simp [Json.prop, truthy] at h

theorem post_unparsed (request : Request) (env : Env) (now : Nat) (e : String)
    (h : request.json = .error e) :
    handlePostMessage request env corsHeaders now =
      ⟨failureResponse "Failed to submit message" e, env.User_Aminoac.messages, []⟩ := by
  simp [handlePostMessage, handlePostMessage.tryBlock, h, failureResponse]

theorem post_null (request : Request) (env : Env) (now : Nat)
    (h : request.json = .ok .null) :
    handlePostMessage request env corsHeaders now =
      ⟨failureResponse "Failed to submit message"
          "Cannot destructure property \x27name\x27 of \x27(intermediate value)\x27 as it is null.",
        env.User_Aminoac.messages, []⟩ := by
  simp [handlePostMessage, handlePostMessage.tryBlock, h, failureResponse, destructure]

theorem post_required (request : Request) (env : Env) (now : Nat) (body : Json)
    (hj : request.json = .ok body) (hb : body ≠ .null)
    (h : truthy (body.prop "name") = false ∨ truthy (body.prop "email") = false ∨
      truthy (body.prop "message") = false) :
    handlePostMessage request env corsHeaders now =
      ⟨errorResponse 400 "Name, email, and message are required",
        env.User_Aminoac.messages, []⟩ := by
  have hc : (!truthy (body.prop "name") || !truthy (body.prop "email") ||
      !truthy (body.prop "message")) = true := by
    rcases h with h | h | h <;> simp [h]
  simp [handlePostMessage, handlePostMessage.tryBlock, hj, destructure_ok body hb, hc,
    errorResponse]

theorem post_invalid (request : Request) (env : Env) (now : Nat) (body : Json)
    (text : String) (hj : request.json = .ok body)
    (hn : truthy (body.prop "name") = true) (he : truthy (body.prop "email") = true)
    (hm : truthy (body.prop "message") = true)
    (htext : toText (body.prop "email") = .ok text)
    (h : emailRegex.test text = false) :
    handlePostMessage request env corsHeaders now =
      ⟨errorResponse 400 "Invalid email format", env.User_Aminoac.messages, []⟩ := by
  simp [handlePostMessage, handlePostMessage.tryBlock, hj,
    destructure_ok body (ne_null_of_truthy_prop body _ hn), hn, he, hm, htext, h, errorResponse]

theorem post_text_thrown (request : Request) (env : Env) (now : Nat) (body : Json)
    (e : String) (hj : request.json = .ok body)
    (hn : truthy (body.prop "name") = true) (he : truthy (body.prop "email") = true)
    (hm : truthy (body.prop "message") = true)
    (htext : toText (body.prop "email") = .error e) :
    handlePostMessage request env corsHeaders now =
      ⟨failureResponse "Failed to submit message" e, env.User_Aminoac.messages, []⟩ := by
  simp [handlePostMessage, handlePostMessage.tryBlock, hj,
    destructure_ok body (ne_null_of_truthy_prop body _ hn), hn, he, hm, htext, failureResponse]

theorem post_bind_failed (request : Request) (env : Env) (now : Nat) (body : Json)
    (text e : String) (hj : request.json = .ok body)
    (hn : truthy (body.prop "name") = true) (he : truthy (body.prop "email") = true)
    (hm : truthy (body.prop "message") = true)
    (htext : toText (body.prop "email") = .ok text)
    (h : emailRegex.test text = true)
    (hb : D1Database.bind (body.prop "name") (body.prop "email") (body.prop "message")
      (toISOString now) = .error e) :
    handlePostMessage request env corsHeaders now =
      ⟨failureResponse "Failed to submit message" e, env.User_Aminoac.messages, []⟩ := by
  simp [handlePostMessage, handlePostMessage.tryBlock, hj,
    destructure_ok body (ne_null_of_truthy_prop body _ hn), hn, he, hm, htext, h, hb,
    failureResponse]

theorem post_insert_failed (request : Request) (env : Env) (now : Nat) (body : Json)
    (text e : String) (values : Json × Json × Json × String)
    (hj : request.json = .ok body)
    (hn : truthy (body.prop "name") = true) (he : truthy (body.prop "email") = true)
    (hm : truthy (body.prop "message") = true)
    (htext : toText (body.prop "email") = .ok text)
    (h : emailRegex.test text = true)
    (hb : D1Database.bind (body.prop "name") (body.prop "email") (body.prop "message")
      (toISOString now) = .ok values)
    (hf : env.User_Aminoac.failure = some e) :
    handlePostMessage request env corsHeaders now =
      ⟨failureResponse "Failed to submit message" e, env.User_Aminoac.messages,
        [.insertMessage]⟩ := by
  simp [handlePostMessage, handlePostMessage.tryBlock, hj,
    destructure_ok body (ne_null_of_truthy_prop body _ hn), hn, he, hm, htext, h, hb,
    D1Database.run, hf, failureResponse]

theorem post_created (request : Request) (env : Env) (now : Nat) (body : Json)
    (text : String) (values : Json × Json × Json × String)
    (hj : request.json = .ok body)
    (hn : truthy (body.prop "name") = true) (he : truthy (body.prop "email") = true)
    (hm : truthy (body.prop "message") = true)
    (htext : toText (body.prop "email") = .ok text)
    (h : emailRegex.test text = true)
    (hb : D1Database.bind (body.prop "name") (body.prop "email") (body.prop "message")
      (toISOString now) = .ok values)
    (hf : env.User_Aminoac.failure = none) :
    handlePostMessage request env corsHeaders now =
      ⟨createdResponse (maxId env.User_Aminoac.messages + 1),
        env.User_Aminoac.messages ++
          [⟨maxId env.User_Aminoac.messages + 1, stored values.1, stored values.2.1,
            stored values.2.2.1, values.2.2.2⟩],
        [.insertMessage]⟩ := by
  simp [handlePostMessage, handlePostMessage.tryBlock, hj,
    destructure_ok body (ne_null_of_truthy_prop body _ hn), hn, he, hm, htext, h, hb,
    D1Database.run, hf, createdResponse]

/-- What a successful `bind` returns: the three bound values and the text of
the clock. -/
theorem bind_ok_iff (name email message : JsVal) (created_at : String)
    (values : Json × Json × Json × String) :
    D1Database.bind name email message created_at = .ok values ↔
      bindValue name = .ok values.1 ∧ bindValue email = .ok values.2.1 ∧
        bindValue message = .ok values.2.2.1 ∧ values.2.2.2 = created_at := by
  obtain ⟨v1, v2, v3, v4⟩ := values
  unfold D1Database.bind
  cases h1 : bindValue name with
  | error e => simp
  | ok n =>
    cases h2 : bindValue email with
    | error e => simp
    | ok e =>
      cases h3 : bindValue message with
      | error e => simp
      | ok m =>
        simp only [Except.ok.injEq, Prod.mk.injEq]
        constructor
        · rintro ⟨rfl, rfl, rfl, rfl⟩
          exact ⟨rfl, rfl, rfl, rfl⟩
        · rintro ⟨rfl, rfl, rfl, rfl⟩
          exact ⟨rfl, rfl, rfl, rfl⟩

theorem bind_strings (name email message created_at : String) :
    D1Database.bind (some (.str name)) (some (.str email)) (some (.str message)) created_at =
      .ok (.str name, .str email, .str message, created_at) := rfl

theorem realText_small (n : Int) (h : n.natAbs < 10 ^ 15) :
    realText n = toString n ++ ".0" := by
  unfold realText
  simp only [h, if_true]
  cases n with
  | ofNat m =>
    have hnot : ¬ (Int.ofNat m < 0) := by simp
    simp only [hnot, if_false]
    rfl
  | negSucc m =>
    have hneg : Int.negSucc m < 0 := Int.negSucc_lt_zero m
    simp only [hneg, if_true]
    rfl

theorem keptAs_of_bound (v : JsVal) (bound : Json) (ht : truthy v = true)
    (hb : bindValue v = .ok bound) : KeptAs v (stored bound) := by
  cases v with
  | none => simp [truthy] at ht
  | some j =>
    cases j with
    | null => simp [truthy, Json.truthy] at ht
    | bool b =>
      cases b
      · simp [truthy, Json.truthy] at ht
      · have h2 : bound = .num 1 := by simpa [bindValue] using hb.symm
        subst h2
        exact Or.inr (Or.inr (Or.inl ⟨rfl, rfl⟩))
    | num n =>
      have h2 : bound = .num n := by simpa [bindValue] using hb.symm
      subst h2
      have hn : n ≠ 0 := by simpa [truthy, Json.truthy] using ht
      exact Or.inr (Or.inr (Or.inr ⟨n, realText n, hn, rfl, rfl, realText_small n⟩))
    | str s =>
      have h2 : bound = .str s := by simpa [bindValue] using hb.symm
      subst h2
      have hs : s ≠ "" := by simpa [truthy, Json.truthy] using ht
      exact Or.inl ⟨s, hs, rfl, rfl⟩
    | arr items =>
      by_cases hall : items.all isByte = true
      · have h2 : bound = .arr items := by simpa [bindValue, hall] using hb.symm
        subst h2
        exact Or.inr (Or.inl ⟨items, hall, rfl, rfl⟩)
      · exfalso
        cases h3 : Json.toText (.arr items) <;> simp [bindValue, hall, h3, typeError] at hb
    | obj members =>
      exfalso
      cases h3 : Json.toText (.obj members) <;> simp [bindValue, h3, typeError] at hb

/-- Every invocation takes one of the exits of the source. -/
theorem fetch_cases (request : Request) (env : Env) (now : Nat) :
    fetch request env now =
        ⟨newResponse .empty ⟨none, corsHeaders⟩, env.User_Aminoac.messages, []⟩ ∨
    ((request.url.pathname ≠ "/api/messages" ∨
        (request.method ≠ "GET" ∧ request.method ≠ "POST")) ∧
      fetch request env now = ⟨notFoundResponse, env.User_Aminoac.messages, []⟩) ∨
    fetch request env now =
        ⟨newResponse
            (.json (.obj [("messages",
              .arr ((selectLatest env.User_Aminoac.messages).map Row.toJson))]))
            ⟨none, jsonHeaders corsHeaders⟩,
          env.User_Aminoac.messages, [.selectLatest]⟩ ∨
    (∃ e, fetch request env now =
        ⟨failureResponse "Failed to fetch messages" e, env.User_Aminoac.messages,
          [.selectLatest]⟩) ∨
    (∃ e, fetch request env now =
        ⟨failureResponse "Failed to submit message" e, env.User_Aminoac.messages, []⟩) ∨
    (∃ e, fetch request env now =
        ⟨failureResponse "Failed to submit message" e, env.User_Aminoac.messages,
          [.insertMessage]⟩) ∨
    fetch request env now =
        ⟨errorResponse 400 "Name, email, and message are required",
          env.User_Aminoac.messages, []⟩ ∨
    fetch request env now =
        ⟨errorResponse 400 "Invalid email format", env.User_Aminoac.messages, []⟩ ∨
    (request.method = "POST" ∧ request.url.pathname = "/api/messages" ∧
      env.User_Aminoac.failure = none ∧
      ∃ body text values, request.json = .ok body ∧
        truthy (body.prop "name") = true ∧ truthy (body.prop "email") = true ∧
        truthy (body.prop "message") = true ∧
        toText (body.prop "email") = .ok text ∧ emailRegex.test text = true ∧
        D1Database.bind (body.prop "name") (body.prop "email") (body.prop "message")
          (toISOString now) = .ok values ∧
        fetch request env now =
          ⟨createdResponse (maxId env.User_Aminoac.messages + 1),
            env.User_Aminoac.messages ++
              [⟨maxId env.User_Aminoac.messages + 1, stored values.1, stored values.2.1,
                stored values.2.2.1, toISOString now⟩],
            [.insertMessage]⟩) := by
  by_cases h0 : request.method = "OPTIONS"
  · exact Or.inl (fetch_options request env now h0)
  by_cases hp : request.url.pathname = "/api/messages"
  swap
  · exact Or.inr (Or.inl ⟨Or.inl hp, fetch_notFound request env now h0 (Or.inl hp)⟩)
  by_cases hg : request.method = "GET"
  · rw [fetch_get request env now hg hp]
    cases hf : env.User_Aminoac.failure with
    | none => exact Or.inr (Or.inr (Or.inl (get_ok env hf)))
    | some e => exact Or.inr (Or.inr (Or.inr (Or.inl ⟨e, get_failed env e hf⟩)))
  by_cases hpost : request.method = "POST"
  swap
  · exact Or.inr (Or.inl ⟨Or.inr ⟨hg, hpost⟩,
      fetch_notFound request env now h0 (Or.inr ⟨hg, hpost⟩)⟩)
  rw [fetch_post request env now hpost hp]
  iterate 4 apply Or.inr
  cases hj : request.json with
  | error e => exact Or.inl ⟨e, post_unparsed request env now e hj⟩
  | ok body =>
    by_cases hnull : body = .null
    · subst hnull
      exact Or.inl ⟨_, post_null request env now hj⟩
    cases hn : truthy (body.prop "name") with
    | false =>
      exact Or.inr (Or.inr (Or.inl (post_required request env now body hj hnull (Or.inl hn))))
    | true =>
    cases he : truthy (body.prop "email") with
    | false =>
      exact Or.inr (Or.inr (Or.inl
        (post_required request env now body hj hnull (Or.inr (Or.inl he)))))
    | true =>
    cases hm : truthy (body.prop "message") with
    | false =>
      exact Or.inr (Or.inr (Or.inl
        (post_required request env now body hj hnull (Or.inr (Or.inr hm)))))
    | true =>
    cases htext : toText (body.prop "email") with
    | error e => exact Or.inl ⟨e, post_text_thrown request env now body e hj hn he hm htext⟩
    | ok text =>
    cases ht : emailRegex.test text with
    | false =>
      exact Or.inr (Or.inr (Or.inr (Or.inl
        (post_invalid request env now body text hj hn he hm htext ht))))
    | true =>
    cases hb : D1Database.bind (body.prop "name") (body.prop "email") (body.prop "message")
        (toISOString now) with
    | error e =>
      exact Or.inl ⟨e, post_bind_failed request env now body text e hj hn he hm htext ht hb⟩
    | ok values =>
    cases hf : env.User_Aminoac.failure with
    | some e =>
      exact Or.inr (Or.inl ⟨e,
        post_insert_failed request env now body text e values hj hn he hm htext ht hb hf⟩)
    | none =>
      have hc := post_created request env now body text values hj hn he hm htext ht hb hf
      rw [((bind_ok_iff _ _ _ _ values).mp hb).2.2.2] at hc
      exact Or.inr (Or.inr (Or.inr (Or.inr
        ⟨hpost, hp, rfl, body, text, values, rfl, hn, he, hm, htext, ht, hb, hc⟩)))

/-- The table after an invocation: unchanged, or one row appended by an
accepted submission. -/
theorem messages_cases (request : Request) (env : Env) (now : Nat) :
    (fetch request env now).messages = env.User_Aminoac.messages ∨
    (request.method = "POST" ∧ request.url.pathname = "/api/messages" ∧
      env.User_Aminoac.failure = none ∧
      ∃ body text values, request.json = .ok body ∧
        truthy (body.prop "name") = true ∧ truthy (body.prop "email") = true ∧
        truthy (body.prop "message") = true ∧
        toText (body.prop "email") = .ok text ∧ emailRegex.test text = true ∧
        D1Database.bind (body.prop "name") (body.prop "email") (body.prop "message")
          (toISOString now) = .ok values ∧
        (fetch request env now).messages =
          env.User_Aminoac.messages ++
            [⟨maxId env.User_Aminoac.messages + 1, stored values.1, stored values.2.1,
              stored values.2.2.1, toISOString now⟩]) := by
  rcases fetch_cases request env now with h | ⟨-, h⟩ | h | ⟨e, h⟩ | ⟨e, h⟩ | ⟨e, h⟩ |
    h | h | ⟨hm, hp, hf, body, text, values, hj, hn, he, hmsg, htext, ht, hb, h⟩
  · exact Or.inl (by rw [h])
  · exact Or.inl (by rw [h])
  · exact Or.inl (by rw [h])
  · exact Or.inl (by rw [h])
  · exact Or.inl (by rw [h])
  · exact Or.inl (by rw [h])
  · exact Or.inl (by rw [h])
  · exact Or.inl (by rw [h])
  · exact Or.inr ⟨hm, hp, hf, body, text, values, hj, hn, he, hmsg, htext, ht, hb, by rw [h]⟩

/-- C1, as amended: a `POST /api/messages` whose body has a non-empty string
as name, a non-empty string as message and a string email that passes the
pattern, and whose insert does not fail, is answered with status 201 and the
body `success: true, message: "Message submitted successfully", id:` the id of
the row the store added; and when fewer than 20 rows of the table have a
`created_at` that is not before the new one, a `GET /api/messages` issued next,
its query succeeding, is answered with a `messages` array that contains the
record with that id, name, email and message. -/
theorem submission_created_and_listed (request : Request) (env : Env) (now : Nat) (body : Json)
    (name email message : String)
    (hmethod : request.method = "POST") (hpath : request.url.pathname = "/api/messages")
    (hjson : request.json = .ok body)
    (hname : body.prop "name" = some (.str name)) (hname_ne : name ≠ "")
    (hmessage : body.prop "message" = some (.str message)) (hmessage_ne : message ≠ "")
    (hemail : body.prop "email" = some (.str email))
    (hvalid : emailRegex.test email = true)
    (hinsert : env.User_Aminoac.failure = none)
    (hroom : countNotOlder env.User_Aminoac.messages (toISOString now) < 20) :
    ∃ id : Nat,
      (fetch request env now).response.status = 201 ∧
      (fetch request env now).response.body =
        .json (.obj [("success", .bool true),
          ("message", .str "Message submitted successfully"), ("id", .num id)]) ∧
      (fetch request env now).messages =
        env.User_Aminoac.messages ++
          [⟨id, .str name, .str email, .str message, toISOString now⟩] ∧
      ∀ (listing : Request) (later : Nat),
        listing.method = "GET" → listing.url.pathname = "/api/messages" →
        (fetch listing ⟨⟨(fetch request env now).messages, none⟩⟩ later).response.status = 200 ∧
        ∃ items : List Json,
          (fetch listing ⟨⟨(fetch request env now).messages, none⟩⟩ later).response.body =
            .json (.obj [("messages", .arr items)]) ∧
          Json.obj [("id", .num id), ("name", .str name), ("email", .str email),
            ("message", .str message), ("created_at", .str (toISOString now))] ∈ items := by
  have hn : truthy (body.prop "name") = true := by
    rw [hname]; simpa [truthy, Json.truthy] using hname_ne
  have hm : truthy (body.prop "message") = true := by
    rw [hmessage]; simpa [truthy, Json.truthy] using hmessage_ne
  have hne : email ≠ "" := by
    rintro rfl
    revert hvalid
    decide
  have he : truthy (body.prop "email") = true := by
    rw [hemail]; simpa [truthy, Json.truthy] using hne
  have htext : toText (body.prop "email") = .ok email := by rw [hemail]; rfl
  have hb : D1Database.bind (body.prop "name") (body.prop "email") (body.prop "message")
      (toISOString now) = .ok (.str name, .str email, .str message, toISOString now) := by
    rw [hname, hemail, hmessage]; rfl
  have hpost := post_created request env now body email _ hjson hn he hm htext hvalid hb hinsert
  rw [fetch_post request env now hmethod hpath, hpost]
  refine ⟨maxId env.User_Aminoac.messages + 1, rfl, rfl, rfl, ?_⟩
  intro listing later hlm hlp
  rw [fetch_get listing _ later hlm hlp, get_ok _ rfl]
  refine ⟨rfl, _, rfl, ?_⟩
  exact List.mem_map.mpr
    ⟨⟨maxId env.User_Aminoac.messages + 1, .str name, .str email, .str message,
      toISOString now⟩, mem_selectLatest_append _ _ hroom, rfl⟩

/-- C1, witness: the example submission of the specification on an empty
table. -/
theorem submission_created_and_listed_witness :
    aliceBody.prop "name" = some (.str "Alice") ∧
    emailRegex.test "alice@example.com" = true ∧
    countNotOlder emptyEnv.User_Aminoac.messages (toISOString clock2026) < 20 ∧
    ∃ id : Nat,
      (fetch postAlice emptyEnv clock2026).response.status = 201 ∧
      (fetch postAlice emptyEnv clock2026).response.body =
        .json (.obj [("success", .bool true),
          ("message", .str "Message submitted successfully"), ("id", .num id)]) ∧
      (fetch postAlice emptyEnv clock2026).messages =
        emptyEnv.User_Aminoac.messages ++
          [⟨id, .str "Alice", .str "alice@example.com", .str "Hello",
            toISOString clock2026⟩] ∧
      ∀ (listing : Request) (later : Nat),
        listing.method = "GET" → listing.url.pathname = "/api/messages" →
        (fetch listing ⟨⟨(fetch postAlice emptyEnv clock2026).messages, none⟩⟩
          later).response.status = 200 ∧
        ∃ items : List Json,
          (fetch listing ⟨⟨(fetch postAlice emptyEnv clock2026).messages, none⟩⟩
            later).response.body = .json (.obj [("messages", .arr items)]) ∧
          Json.obj [("id", .num id), ("name", .str "Alice"),
            ("email", .str "alice@example.com"), ("message", .str "Hello"),
            ("created_at", .str (toISOString clock2026))] ∈ items :=
  ⟨rfl, by decide, by decide,
    submission_created_and_listed postAlice emptyEnv clock2026 aliceBody
      "Alice" "alice@example.com" "Hello" rfl rfl rfl rfl (by decide) rfl (by decide) rfl
      (by decide) rfl (by decide)⟩

/-- C1, counterexample: on a table of twenty rows stored in 2030 the valid
submission of Alice at a clock reading of 2026 is answered with 201, and the
listing issued next on the resulting table returns twenty records, each
under the name `Zed` and dated 2030: no record of Alice is in it. -/
theorem submission_behind_newer_rows_not_listed :
    crowdedEnv.User_Aminoac.failure = none ∧
    aliceBody.prop "name" = some (.str "Alice") ∧
    aliceBody.prop "message" = some (.str "Hello") ∧
    aliceBody.prop "email" = some (.str "alice@example.com") ∧
    emailRegex.test "alice@example.com" = true ∧
    (fetch postAlice crowdedEnv clock2026).response.status = 201 ∧
    (fetch (bare "GET" "/api/messages")
        ⟨⟨(fetch postAlice crowdedEnv clock2026).messages, none⟩⟩ clock2026).response.body =
      .json (.obj [("messages", .arr ((List.range 20).map fun i =>
        .obj [("id", .num (i + 1)), ("name", .str "Zed"), ("email", .str "zed@example.org"),
          ("message", .str "Earlier"), ("created_at", .str "2030-01-01T00:00:00.000Z")]))]) ∧
    ¬ ∃ item ∈ (List.range 20).map (fun i : Nat =>
        Json.obj [("id", .num (i + 1)), ("name", .str "Zed"),
          ("email", .str "zed@example.org"), ("message", .str "Earlier"),
          ("created_at", .str "2030-01-01T00:00:00.000Z")]),
      item.prop "name" = some (.str "Alice") := by
  refine ⟨rfl, rfl, rfl, rfl, by decide, by decide, by rfl, ?_⟩
  rintro ⟨item, h, hname⟩
  simp only [List.mem_map] at h
  obtain ⟨i, -, rfl⟩ := h
  have h2 : (some (Json.str "Zed") : JsVal) = some (.str "Alice") := hname
  simp at h2

/-- The presence check as C2 states it, on every parsed body other than `null`:
a `POST /api/messages` whose body has any of name, email or message missing or
falsy is answered with status 400 and the body `error: "Name, email, and
message are required"`, whatever the other fields are; no statement is run and
the table is unchanged. -/
theorem missing_field_rejected (request : Request) (env : Env) (now : Nat) (body : Json)
    (hmethod : request.method = "POST") (hpath : request.url.pathname = "/api/messages")
    (hjson : request.json = .ok body) (hbody : body ≠ .null)
    (hfalsy : truthy (body.prop "name") = false ∨ truthy (body.prop "email") = false ∨
      truthy (body.prop "message") = false) :
    (fetch request env now).response.status = 400 ∧
    (fetch request env now).response.body =
      .json (.obj [("error", .str "Name, email, and message are required")]) ∧
    (fetch request env now).statements = [] ∧
    (fetch request env now).messages = env.User_Aminoac.messages := by
  rw [fetch_post request env now hmethod hpath,
    post_required request env now body hjson hbody hfalsy]
  exact ⟨rfl, rfl, rfl, rfl⟩

/-- The presence check at a body whose name is `0` and whose email is
malformed, on a table that holds rows. -/
theorem missing_field_rejected_witness :
    truthy ((Json.obj [("name", .num 0), ("email", .str "nowhere"),
      ("message", .str "Hi")]).prop "name") = false ∧
    (fetch (postOf (.obj [("name", .num 0), ("email", .str "nowhere"), ("message", .str "Hi")]))
      crowdedEnv clock2026).response.status = 400 ∧
    (fetch (postOf (.obj [("name", .num 0), ("email", .str "nowhere"), ("message", .str "Hi")]))
      crowdedEnv clock2026).response.body =
      .json (.obj [("error", .str "Name, email, and message are required")]) ∧
    (fetch (postOf (.obj [("name", .num 0), ("email", .str "nowhere"), ("message", .str "Hi")]))
      crowdedEnv clock2026).statements = [] ∧
    (fetch (postOf (.obj [("name", .num 0), ("email", .str "nowhere"), ("message", .str "Hi")]))
      crowdedEnv clock2026).messages = crowdedEnv.User_Aminoac.messages :=
  ⟨by decide,
    missing_field_rejected
      (postOf (.obj [("name", .num 0), ("email", .str "nowhere"), ("message", .str "Hi")]))
      crowdedEnv clock2026 _ rfl rfl rfl (by simp) (Or.inl (by decide))⟩

/-- C2, the code at the failing input: the body `null` parses and has no name,
no email and no message, and it is answered with status 500 and the body of
the `catch` clause, because the destructuring throws before the presence check
is reached; the other parsed bodies without fields (`[1]`, `"abc"`, `5`,
`true` and the empty object) are answered with 400 by that check. -/
theorem null_body_answered_500 :
    (postOf .null).method = "POST" ∧ (postOf .null).url.pathname = "/api/messages" ∧
    (postOf .null).json = .ok .null ∧
    truthy (Json.null.prop "name") = false ∧
    (fetch (postOf .null) emptyEnv clock2026).response.status = 500 ∧
    (fetch (postOf .null) emptyEnv clock2026).response.body =
      .json (.obj [("error", .str "Failed to submit message"),
        ("details", .str
          "Cannot destructure property \x27name\x27 of \x27(intermediate value)\x27 as it is null.")]) ∧
    (fetch (postOf (.arr [.num 1])) emptyEnv clock2026).response.status = 400 ∧
    (fetch (postOf (.str "abc")) emptyEnv clock2026).response.status = 400 ∧
    (fetch (postOf (.num 5)) emptyEnv clock2026).response.status = 400 ∧
    (fetch (postOf (.bool true)) emptyEnv clock2026).response.status = 400 ∧
    (fetch (postOf (.obj [])) emptyEnv clock2026).response.status = 400 :=
  ⟨rfl, rfl, rfl, by decide, by decide, rfl, by decide, by decide, by decide, by decide,
    by decide⟩

/-- C3, as amended: for a `POST /api/messages` whose body has a truthy name
and message and a non-empty string as email, the submission is rejected by
the email check (status 400, body `error: "Invalid email format"`, no
statement run) if and only if the email does not have the strict shape: one or
more characters that are neither whitespace nor `@`, then `@`, then one or more
such characters, then `.`, then one or more characters that are again neither
whitespace nor `@`. -/
theorem email_check_rejects_iff (request : Request) (env : Env) (now : Nat) (body : Json)
    (email : String)
    (hmethod : request.method = "POST") (hpath : request.url.pathname = "/api/messages")
    (hjson : request.json = .ok body)
    (hname : truthy (body.prop "name") = true)
    (hmessage : truthy (body.prop "message") = true)
    (hemail : body.prop "email" = some (.str email)) (hne : email ≠ "") :
    ((fetch request env now).response.status = 400 ∧
      (fetch request env now).response.body = .json (.obj [("error", .str "Invalid email format")]) ∧
      (fetch request env now).statements = []) ↔ ¬ strictEmailShape email := by
  have he : truthy (body.prop "email") = true := by
    rw [hemail]; simpa [truthy, Json.truthy] using hne
  have htext : toText (body.prop "email") = .ok email := by rw [hemail]; rfl
  rw [fetch_post request env now hmethod hpath, ← emailRegex_test_iff]
  cases htest : emailRegex.test email with
  | false =>
    rw [post_invalid request env now body email hjson hname he hmessage htext htest]
    simp [errorResponse, newResponse]
  | true =>
    cases hb : D1Database.bind (body.prop "name") (body.prop "email") (body.prop "message")
        (toISOString now) with
    | error msg =>
      rw [post_bind_failed request env now body email msg hjson hname he hmessage htext
        htest hb]
      simp [failureResponse, newResponse]
    | ok values =>
      cases hf : env.User_Aminoac.failure with
      | none =>
        rw [post_created request env now body email values hjson hname he hmessage htext
          htest hb hf]
        simp [createdResponse, newResponse]
      | some msg =>
        rw [post_insert_failed request env now body email msg values hjson hname he hmessage
          htext htest hb hf]
        simp [failureResponse, newResponse]

/-- C3, witness: the example `not-an-email` of the specification. -/
theorem email_check_rejects_iff_witness :
    (((fetch (postOf (.obj [("name", .str "Bob"), ("email", .str "not-an-email"),
        ("message", .str "Hi")])) emptyEnv clock2026).response.status = 400 ∧
      (fetch (postOf (.obj [("name", .str "Bob"), ("email", .str "not-an-email"),
        ("message", .str "Hi")])) emptyEnv clock2026).response.body =
        .json (.obj [("error", .str "Invalid email format")]) ∧
      (fetch (postOf (.obj [("name", .str "Bob"), ("email", .str "not-an-email"),
        ("message", .str "Hi")])) emptyEnv clock2026).statements = []) ↔
      ¬ strictEmailShape "not-an-email") :=
  email_check_rejects_iff
    (postOf (.obj [("name", .str "Bob"), ("email", .str "not-an-email"), ("message", .str "Hi")]))
    emptyEnv clock2026 _ "not-an-email" rfl rfl rfl (by decide) (by decide) rfl (by decide)

/-- C3, counterexample: the email `a@b.c@d` has the shape the specification
states (its last run `c@d` has no whitespace), and the email check rejects
it. -/
theorem email_of_spec_shape_rejected :
    specEmailShape "a@b.c@d" ∧
    (fetch (postOf (.obj [("name", .str "Bob"), ("email", .str "a@b.c@d"),
      ("message", .str "Hi")])) emptyEnv clock2026).response.status = 400 ∧
    (fetch (postOf (.obj [("name", .str "Bob"), ("email", .str "a@b.c@d"),
      ("message", .str "Hi")])) emptyEnv clock2026).response.body =
      .json (.obj [("error", .str "Invalid email format")]) ∧
    (fetch (postOf (.obj [("name", .str "Bob"), ("email", .str "a@b.c@d"),
      ("message", .str "Hi")])) emptyEnv clock2026).statements = [] := by
  refine ⟨⟨['a'], ['b'], ['c', '@', 'd'], rfl, by simp, ?_, by simp, ?_, by simp, ?_⟩,
    by decide, rfl, by decide⟩
  · intro c hc
    simp only [List.mem_singleton] at hc
    subst hc
    decide
  · intro c hc
    simp only [List.mem_singleton] at hc
    subst hc
    decide
  · intro c hc
    simp only [List.mem_cons, List.mem_singleton, List.not_mem_nil, or_false] at hc
    rcases hc with rfl | rfl | rfl <;> decide

theorem not_strictEmailShape_of_missing (email : String)
    (h : '@' ∉ email.data ∨ ∃ l r, email.data = l ++ '@' :: r ∧ '.' ∉ r) :
    ¬ strictEmailShape email := by
  rintro ⟨l, d, t, hs, -, hl, -, hd, -, ht⟩
  have hnot : '@' ∉ d ++ '.' :: t := by
    intro hm
    rcases List.mem_append.mp hm with hm | hm
    · exact (hd _ hm).2 rfl
    · rcases List.mem_cons.mp hm with hm | hm
      · exact absurd hm (by decide)
      · exact (ht _ hm).2 rfl
  rcases h with h | ⟨l1, r, hs1, hdot⟩
  · apply h
    rw [hs]
    simp
  · rw [hs] at hs1
    rcases List.append_eq_append_iff.mp hs1 with ⟨a1, h1, h2⟩ | ⟨c1, h1, h2⟩
    · cases a1 with
      | nil =>
        rw [List.nil_append, List.cons.injEq] at h2
        apply hdot
        rw [← h2.2]
        simp
      | cons x a2 =>
        rw [List.cons_append, List.cons.injEq] at h2
        apply hnot
        rw [h2.2]
        simp
    · cases c1 with
      | nil =>
        rw [List.nil_append, List.cons.injEq] at h2
        apply hdot
        rw [h2.2]
        simp
      | cons x c2 =>
        rw [List.cons_append, List.cons.injEq] at h2
        have hx : '@' ∈ l := by
          rw [h1, ← h2.1]
          simp
        exact (hl _ hx).2 rfl

/-- C4, as amended: a `POST /api/messages` whose body has a truthy name and
message and a string email that contains no `@`, or that contains no `.` after
an `@` of it, is answered with status 400, runs no statement and leaves the
table unchanged; the body is `error: "Invalid email format"` when the email is
not the empty string, and `error: "Name, email, and message are required"`
when it is the empty string. -/
theorem email_without_at_or_dot_rejected (request : Request) (env : Env) (now : Nat)
    (body : Json) (email : String)
    (hmethod : request.method = "POST") (hpath : request.url.pathname = "/api/messages")
    (hjson : request.json = .ok body)
    (hname : truthy (body.prop "name") = true)
    (hmessage : truthy (body.prop "message") = true)
    (hemail : body.prop "email" = some (.str email))
    (hbad : '@' ∉ email.data ∨ ∃ l r, email.data = l ++ '@' :: r ∧ '.' ∉ r) :
    (fetch request env now).response.status = 400 ∧
    (fetch request env now).messages = env.User_Aminoac.messages ∧
    (fetch request env now).messages.length = env.User_Aminoac.messages.length ∧
    (fetch request env now).statements = [] ∧
    (email ≠ "" → (fetch request env now).response.body =
      .json (.obj [("error", .str "Invalid email format")])) ∧
    (email = "" → (fetch request env now).response.body =
      .json (.obj [("error", .str "Name, email, and message are required")])) := by
  rw [fetch_post request env now hmethod hpath]
  by_cases hne : email = ""
  · have he : truthy (body.prop "email") = false := by
      rw [hemail, hne]; rfl
    rw [post_required request env now body hjson (ne_null_of_truthy_prop body _ hname)
      (Or.inr (Or.inl he))]
    exact ⟨rfl, rfl, rfl, rfl, fun h => absurd hne h, fun _ => rfl⟩
  · have he : truthy (body.prop "email") = true := by
      rw [hemail]; simpa [truthy, Json.truthy] using hne
    have htext : toText (body.prop "email") = .ok email := by rw [hemail]; rfl
    have htest : emailRegex.test email = false := by
      have h := not_strictEmailShape_of_missing email hbad
      rw [← emailRegex_test_iff] at h
      simpa using h
    rw [post_invalid request env now body email hjson hname he hmessage htext htest]
    exact ⟨rfl, rfl, rfl, rfl, fun _ => rfl, fun h => absurd h hne⟩

/-- C4, witness: the example `not-an-email` of the specification, on a table
that holds rows. -/
theorem email_without_at_or_dot_rejected_witness :
    '@' ∉ "not-an-email".data ∧
    (fetch (postOf (.obj [("name", .str "Bob"), ("email", .str "not-an-email"),
      ("message", .str "Hi")])) crowdedEnv clock2026).response.status = 400 ∧
    (fetch (postOf (.obj [("name", .str "Bob"), ("email", .str "not-an-email"),
      ("message", .str "Hi")])) crowdedEnv clock2026).messages =
      crowdedEnv.User_Aminoac.messages ∧
    (fetch (postOf (.obj [("name", .str "Bob"), ("email", .str "not-an-email"),
      ("message", .str "Hi")])) crowdedEnv clock2026).messages.length =
      crowdedEnv.User_Aminoac.messages.length ∧
    (fetch (postOf (.obj [("name", .str "Bob"), ("email", .str "not-an-email"),
      ("message", .str "Hi")])) crowdedEnv clock2026).statements = [] ∧
    ("not-an-email" ≠ "" →
      (fetch (postOf (.obj [("name", .str "Bob"), ("email", .str "not-an-email"),
        ("message", .str "Hi")])) crowdedEnv clock2026).response.body =
        .json (.obj [("error", .str "Invalid email format")])) ∧
    ("not-an-email" = "" →
      (fetch (postOf (.obj [("name", .str "Bob"), ("email", .str "not-an-email"),
        ("message", .str "Hi")])) crowdedEnv clock2026).response.body =
        .json (.obj [("error", .str "Name, email, and message are required")])) :=
  ⟨by decide,
    email_without_at_or_dot_rejected
      (postOf (.obj [("name", .str "Bob"), ("email", .str "not-an-email"),
        ("message", .str "Hi")]))
      crowdedEnv clock2026 _ "not-an-email" rfl rfl rfl (by decide) (by decide) rfl
      (Or.inl (by decide))⟩

/-- C4, counterexample: the empty string is a string email that contains no
`@`; with a truthy name and message it is answered with status 400 and the
body `error: "Name, email, and message are required"`, which is not the body
`error: "Invalid email format"`. -/
theorem empty_email_answered_required :
    '@' ∉ "".data ∧
    truthy ((Json.obj [("name", .str "Bob"), ("email", .str ""),
      ("message", .str "Hi")]).prop "name") = true ∧
    truthy ((Json.obj [("name", .str "Bob"), ("email", .str ""),
      ("message", .str "Hi")]).prop "message") = true ∧
    (Json.obj [("name", .str "Bob"), ("email", .str ""),
      ("message", .str "Hi")]).prop "email" = some (.str "") ∧
    (fetch (postOf (.obj [("name", .str "Bob"), ("email", .str ""), ("message", .str "Hi")]))
      emptyEnv clock2026).response.status = 400 ∧
    (fetch (postOf (.obj [("name", .str "Bob"), ("email", .str ""), ("message", .str "Hi")]))
      emptyEnv clock2026).response.body =
      .json (.obj [("error", .str "Name, email, and message are required")]) ∧
    (fetch (postOf (.obj [("name", .str "Bob"), ("email", .str ""), ("message", .str "Hi")]))
      emptyEnv clock2026).response.body ≠
      .json (.obj [("error", .str "Invalid email format")]) := by
  refine ⟨by decide, by decide, by decide, rfl, by decide, rfl, ?_⟩
  intro h
  have h2 : Body.json (.obj [("error", .str "Name, email, and message are required")]) =
      .json (.obj [("error", .str "Invalid email format")]) := h
  simp at h2

/-- C5: when the query succeeds, `GET /api/messages` is answered with status
200 and the body `messages:` the array of the objects `id, name, email,
message, created_at` of the rows `rows`, where `rows` has at most 20 entries
(20, or the size of the table when that is smaller), is ordered by
`created_at` non-increasing, consists of rows of the table such that no row
left out is newer than a listed one, holds every row when the table has at
most 20, and is empty when the table is empty; the response is declared as
`application/json`, the one statement run is the SELECT and the table is
unchanged. -/
theorem listing_returns_latest (request : Request) (env : Env) (now : Nat)
    (hmethod : request.method = "GET") (hpath : request.url.pathname = "/api/messages")
    (hok : env.User_Aminoac.failure = none) :
    ∃ rows : List Row,
      (fetch request env now).response.status = 200 ∧
      (fetch request env now).response.body =
        .json (.obj [("messages", .arr (rows.map fun r =>
          .obj [("id", .num r.id), ("name", r.name), ("email", r.email),
            ("message", r.message), ("created_at", .str r.created_at)]))]) ∧
      (fetch request env now).response.headers =
        [("Content-Type", "application/json"), ("Access-Control-Allow-Origin", "*"),
         ("Access-Control-Allow-Methods", "GET, POST, OPTIONS"),
         ("Access-Control-Allow-Headers", "Content-Type")] ∧
      (fetch request env now).statements = [.selectLatest] ∧
      rows.length ≤ 20 ∧
      rows.length = min 20 env.User_Aminoac.messages.length ∧
      rows.Pairwise (fun r q => q.created_at ≤ r.created_at) ∧
      (∃ rest, (rows ++ rest).Perm env.User_Aminoac.messages ∧
        ∀ r ∈ rows, ∀ q ∈ rest, q.created_at ≤ r.created_at) ∧
      (env.User_Aminoac.messages.length ≤ 20 → rows.Perm env.User_Aminoac.messages) ∧
      (env.User_Aminoac.messages = [] → rows = []) ∧
      (fetch request env now).messages = env.User_Aminoac.messages := by
  rw [fetch_get request env now hmethod hpath, get_ok env hok]
  refine ⟨selectLatest env.User_Aminoac.messages, rfl, rfl, rfl, rfl, ?_,
    selectLatest_length _, ?_, ?_, selectLatest_all _, ?_, rfl⟩
  · rw [selectLatest_length]
    exact Nat.min_le_left _ _
  · exact (selectLatest_descending _).imp (fun h => (textLe_iff_le _ _).mp h)
  · obtain ⟨rest, hperm, hnew⟩ := selectLatest_newest env.User_Aminoac.messages
    exact ⟨rest, hperm, fun r hr q hq => (textLe_iff_le _ _).mp (hnew r hr q hq)⟩
  · intro h
    rw [h]
    rfl

/-- C5, witness: the listing of the table of twenty rows of 2030 after the
submission of Alice was stored. -/
theorem listing_returns_latest_witness :
    (fetch postAlice crowdedEnv clock2026).messages.length = 21 ∧
    ∃ rows : List Row,
      (fetch (bare "GET" "/api/messages")
        ⟨⟨(fetch postAlice crowdedEnv clock2026).messages, none⟩⟩ clock2026).response.status
        = 200 ∧
      (fetch (bare "GET" "/api/messages")
        ⟨⟨(fetch postAlice crowdedEnv clock2026).messages, none⟩⟩ clock2026).response.body =
        .json (.obj [("messages", .arr (rows.map fun r =>
          .obj [("id", .num r.id), ("name", r.name), ("email", r.email),
            ("message", r.message), ("created_at", .str r.created_at)]))]) ∧
      (fetch (bare "GET" "/api/messages")
        ⟨⟨(fetch postAlice crowdedEnv clock2026).messages, none⟩⟩ clock2026).response.headers =
        [("Content-Type", "application/json"), ("Access-Control-Allow-Origin", "*"),
         ("Access-Control-Allow-Methods", "GET, POST, OPTIONS"),
         ("Access-Control-Allow-Headers", "Content-Type")] ∧
      (fetch (bare "GET" "/api/messages")
        ⟨⟨(fetch postAlice crowdedEnv clock2026).messages, none⟩⟩ clock2026).statements =
        [.selectLatest] ∧
      rows.length ≤ 20 ∧
      rows.length = min 20 (fetch postAlice crowdedEnv clock2026).messages.length ∧
      rows.Pairwise (fun r q => q.created_at ≤ r.created_at) ∧
      (∃ rest, (rows ++ rest).Perm (fetch postAlice crowdedEnv clock2026).messages ∧
        ∀ r ∈ rows, ∀ q ∈ rest, q.created_at ≤ r.created_at) ∧
      ((fetch postAlice crowdedEnv clock2026).messages.length ≤ 20 →
        rows.Perm (fetch postAlice crowdedEnv clock2026).messages) ∧
      ((fetch postAlice crowdedEnv clock2026).messages = [] → rows = []) ∧
      (fetch (bare "GET" "/api/messages")
        ⟨⟨(fetch postAlice crowdedEnv clock2026).messages, none⟩⟩ clock2026).messages =
        (fetch postAlice crowdedEnv clock2026).messages :=
  ⟨by decide,
    listing_returns_latest (bare "GET" "/api/messages")
      ⟨⟨(fetch postAlice crowdedEnv clock2026).messages, none⟩⟩ clock2026 rfl rfl rfl⟩

/-- C6, as amended: a request whose method is `OPTIONS`, on any path, is
answered with status 200 (the default of the constructor: the source gives no
status) and an empty body, with exactly the three CORS headers; no statement
is run and the table is unchanged. -/
theorem options_answered_200 (request : Request) (env : Env) (now : Nat)
    (hmethod : request.method = "OPTIONS") :
    (fetch request env now).response.status = 200 ∧
    (fetch request env now).response.body = .empty ∧
    (fetch request env now).response.headers =
      [("Access-Control-Allow-Origin", "*"),
       ("Access-Control-Allow-Methods", "GET, POST, OPTIONS"),
       ("Access-Control-Allow-Headers", "Content-Type")] ∧
    (fetch request env now).statements = [] ∧
    (fetch request env now).messages = env.User_Aminoac.messages := by
  rw [fetch_options request env now hmethod]
  exact ⟨rfl, rfl, rfl, rfl, rfl⟩

/-- C6, witness: the preflight of a path that no route serves. -/
theorem options_answered_200_witness :
    (fetch (bare "OPTIONS" "/elsewhere") crowdedEnv clock2026).response.status = 200 ∧
    (fetch (bare "OPTIONS" "/elsewhere") crowdedEnv clock2026).response.body = .empty ∧
    (fetch (bare "OPTIONS" "/elsewhere") crowdedEnv clock2026).response.headers =
      [("Access-Control-Allow-Origin", "*"),
       ("Access-Control-Allow-Methods", "GET, POST, OPTIONS"),
       ("Access-Control-Allow-Headers", "Content-Type")] ∧
    (fetch (bare "OPTIONS" "/elsewhere") crowdedEnv clock2026).statements = [] ∧
    (fetch (bare "OPTIONS" "/elsewhere") crowdedEnv clock2026).messages =
      crowdedEnv.User_Aminoac.messages :=
  options_answered_200 (bare "OPTIONS" "/elsewhere") crowdedEnv clock2026 rfl

/-- C6, counterexample: the preflight `OPTIONS /api/messages` is answered
with status 200, not 204. -/
theorem options_status_not_204 :
    (bare "OPTIONS" "/api/messages").method = "OPTIONS" ∧
    (fetch (bare "OPTIONS" "/api/messages") emptyEnv clock2026).response.status = 200 ∧
    (fetch (bare "OPTIONS" "/api/messages") emptyEnv clock2026).response.status ≠ 204 := by
  decide

/-- C7, the code at the failing input: `GET /api/unknown` is answered with
status 404 and the single header `Content-Type: text/plain;charset=UTF-8`;
none of the three CORS headers is on the response. -/
theorem not_found_lacks_cors_headers :
    (fetch (bare "GET" "/api/unknown") emptyEnv clock2026).response.status = 404 ∧
    (fetch (bare "GET" "/api/unknown") emptyEnv clock2026).response.headers =
      [("Content-Type", "text/plain;charset=UTF-8")] ∧
    hasHeader (fetch (bare "GET" "/api/unknown") emptyEnv clock2026).response.headers
      "Access-Control-Allow-Origin" = false ∧
    hasHeader (fetch (bare "GET" "/api/unknown") emptyEnv clock2026).response.headers
      "Access-Control-Allow-Methods" = false ∧
    hasHeader (fetch (bare "GET" "/api/unknown") emptyEnv clock2026).response.headers
      "Access-Control-Allow-Headers" = false := by
  decide

/-- C8: a request whose method is not `OPTIONS` and whose path is not exactly
`/api/messages`, or whose method is neither `GET` nor `POST`, is answered with
status 404 and the plain-text body `Not Found` (content type `text/plain`, not
JSON), runs no statement and leaves the table unchanged; and `GET` and `POST`
on exactly `/api/messages` are never answered with status 404 nor with that
body. -/
theorem routing_miss_iff (request : Request) (env : Env) (now : Nat)
    (hmethod : request.method ≠ "OPTIONS") :
    ((request.url.pathname ≠ "/api/messages" ∨
        (request.method ≠ "GET" ∧ request.method ≠ "POST")) →
      (fetch request env now).response.status = 404 ∧
      (fetch request env now).response.body = .text "Not Found" ∧
      (fetch request env now).response.headers =
        [("Content-Type", "text/plain;charset=UTF-8")] ∧
      (fetch request env now).statements = [] ∧
      (fetch request env now).messages = env.User_Aminoac.messages) ∧
    ((request.url.pathname = "/api/messages" ∧
        (request.method = "GET" ∨ request.method = "POST")) →
      (fetch request env now).response.status ≠ 404 ∧
      (fetch request env now).response.body ≠ .text "Not Found") := by
  constructor
  · intro h
    rw [fetch_notFound request env now hmethod h]
    exact ⟨rfl, rfl, rfl, rfl, rfl⟩
  · rintro ⟨hp, hm⟩
    have hmiss : ¬ (request.url.pathname ≠ "/api/messages" ∨
        (request.method ≠ "GET" ∧ request.method ≠ "POST")) := by
      rintro (h | ⟨h1, h2⟩)
      · exact h hp
      · rcases hm with hm | hm
        · exact h1 hm
        · exact h2 hm
    rcases fetch_cases request env now with h | ⟨hmiss2, -⟩ | h | ⟨e, h⟩ | ⟨e, h⟩ | ⟨e, h⟩ |
      h | h | ⟨-, -, -, body, text, values, -, -, -, -, -, -, -, h⟩
    · rw [h]
      exact ⟨by simp [newResponse], by simp [newResponse]⟩
    · exact absurd hmiss2 hmiss
    all_goals
      rw [h]
      exact ⟨by simp [newResponse, failureResponse, errorResponse, createdResponse],
        by simp [newResponse, failureResponse, errorResponse, createdResponse]⟩

/-- C8, witness: `DELETE /api/messages`. -/
theorem routing_miss_iff_witness :
    ((bare "DELETE" "/api/messages").url.pathname ≠ "/api/messages" ∨
      ((bare "DELETE" "/api/messages").method ≠ "GET" ∧
        (bare "DELETE" "/api/messages").method ≠ "POST")) ∧
    (((bare "DELETE" "/api/messages").url.pathname ≠ "/api/messages" ∨
        ((bare "DELETE" "/api/messages").method ≠ "GET" ∧
          (bare "DELETE" "/api/messages").method ≠ "POST")) →
      (fetch (bare "DELETE" "/api/messages") crowdedEnv clock2026).response.status = 404 ∧
      (fetch (bare "DELETE" "/api/messages") crowdedEnv clock2026).response.body =
        .text "Not Found" ∧
      (fetch (bare "DELETE" "/api/messages") crowdedEnv clock2026).response.headers =
        [("Content-Type", "text/plain;charset=UTF-8")] ∧
      (fetch (bare "DELETE" "/api/messages") crowdedEnv clock2026).statements = [] ∧
      (fetch (bare "DELETE" "/api/messages") crowdedEnv clock2026).messages =
        crowdedEnv.User_Aminoac.messages) ∧
    (((bare "DELETE" "/api/messages").url.pathname = "/api/messages" ∧
        ((bare "DELETE" "/api/messages").method = "GET" ∨
          (bare "DELETE" "/api/messages").method = "POST")) →
      (fetch (bare "DELETE" "/api/messages") crowdedEnv clock2026).response.status ≠ 404 ∧
      (fetch (bare "DELETE" "/api/messages") crowdedEnv clock2026).response.body ≠
        .text "Not Found") :=
  ⟨Or.inr (by decide), routing_miss_iff (bare "DELETE" "/api/messages") crowdedEnv clock2026
    (by decide)⟩

/-- C9: `fetch` answers every request, whatever the store does, with a
response whose status is 200, 201, 400, 404 or 500.  A failure of the query of
the listing is answered with status 500 and the body `error: "Failed to fetch
messages", details:` the text of the failure; a failure while submitting, be
it a body that does not parse as JSON (then no statement is run), the `null`
body that cannot be destructured, an email that cannot be converted to a
string, a value that `bind` refuses, or an error of the insert, is answered
with status 500 and the body `error: "Failed to submit message", details:` the
text of the failure.  The table is unchanged in each of these cases, and
whatever is thrown inside the `try` block of a handler is answered so. -/
theorem failures_answered_500 (request : Request) (env : Env) (now : Nat) :
    (fetch request env now).response.status ∈ [200, 201, 400, 404, 500] ∧
    (∀ e, request.method = "GET" → request.url.pathname = "/api/messages" →
      env.User_Aminoac.failure = some e →
      (fetch request env now).response.status = 500 ∧
      (fetch request env now).response.body =
        .json (.obj [("error", .str "Failed to fetch messages"), ("details", .str e)]) ∧
      (fetch request env now).messages = env.User_Aminoac.messages) ∧
    (∀ e, request.method = "POST" → request.url.pathname = "/api/messages" →
      request.json = .error e →
      (fetch request env now).response.status = 500 ∧
      (fetch request env now).response.body =
        .json (.obj [("error", .str "Failed to submit message"), ("details", .str e)]) ∧
      (fetch request env now).statements = [] ∧
      (fetch request env now).messages = env.User_Aminoac.messages) ∧
    (request.method = "POST" → request.url.pathname = "/api/messages" →
      request.json = .ok .null →
      (fetch request env now).response.status = 500 ∧
      (∃ e, (fetch request env now).response.body =
        .json (.obj [("error", .str "Failed to submit message"), ("details", .str e)])) ∧
      (fetch request env now).statements = [] ∧
      (fetch request env now).messages = env.User_Aminoac.messages) ∧
    (∀ e body text values, request.method = "POST" →
      request.url.pathname = "/api/messages" → request.json = .ok body →
      truthy (body.prop "name") = true → truthy (body.prop "email") = true →
      truthy (body.prop "message") = true →
      toText (body.prop "email") = .ok text → emailRegex.test text = true →
      D1Database.bind (body.prop "name") (body.prop "email") (body.prop "message")
        (toISOString now) = .ok values →
      env.User_Aminoac.failure = some e →
      (fetch request env now).response.status = 500 ∧
      (fetch request env now).response.body =
        .json (.obj [("error", .str "Failed to submit message"), ("details", .str e)]) ∧
      (fetch request env now).messages = env.User_Aminoac.messages) ∧
    (∀ e body text, request.method = "POST" →
      request.url.pathname = "/api/messages" → request.json = .ok body →
      truthy (body.prop "name") = true → truthy (body.prop "email") = true →
      truthy (body.prop "message") = true →
      toText (body.prop "email") = .ok text → emailRegex.test text = true →
      D1Database.bind (body.prop "name") (body.prop "email") (body.prop "message")
        (toISOString now) = .error e →
      (fetch request env now).response.status = 500 ∧
      (fetch request env now).response.body =
        .json (.obj [("error", .str "Failed to submit message"), ("details", .str e)]) ∧
      (fetch request env now).statements = [] ∧
      (fetch request env now).messages = env.User_Aminoac.messages) ∧
    (∀ e body, request.method = "POST" →
      request.url.pathname = "/api/messages" → request.json = .ok body →
      truthy (body.prop "name") = true → truthy (body.prop "email") = true →
      truthy (body.prop "message") = true →
      toText (body.prop "email") = .error e →
      (fetch request env now).response.status = 500 ∧
      (fetch request env now).response.body =
        .json (.obj [("error", .str "Failed to submit message"), ("details", .str e)]) ∧
      (fetch request env now).statements = [] ∧
      (fetch request env now).messages = env.User_Aminoac.messages) ∧
    (∀ thrown, request.method = "GET" → request.url.pathname = "/api/messages" →
      handleGetMessages.tryBlock env corsHeaders = .error thrown →
      (fetch request env now).response.status = 500 ∧
      (fetch request env now).response.body =
        .json (.obj [("error", .str "Failed to fetch messages"),
          ("details", .str thrown.message)])) ∧
    (∀ thrown, request.method = "POST" → request.url.pathname = "/api/messages" →
      handlePostMessage.tryBlock request env corsHeaders now = .error thrown →
      (fetch request env now).response.status = 500 ∧
      (fetch request env now).response.body =
        .json (.obj [("error", .str "Failed to submit message"),
          ("details", .str thrown.message)])) := by
  refine ⟨?_, ?_, ?_, ?_, ?_, ?_, ?_, ?_, ?_⟩
  · rcases fetch_cases request env now with h | ⟨-, h⟩ | h | ⟨e, h⟩ | ⟨e, h⟩ | ⟨e, h⟩ |
      h | h | ⟨-, -, -, body, text, values, -, -, -, -, -, -, -, h⟩ <;>
    · rw [h]
      simp [newResponse, notFoundResponse, failureResponse, errorResponse, createdResponse]
  · intro e hm hp hf
    rw [fetch_get request env now hm hp, get_failed env e hf]
    exact ⟨rfl, rfl, rfl⟩
  · intro e hm hp hj
    rw [fetch_post request env now hm hp, post_unparsed request env now e hj]
    exact ⟨rfl, rfl, rfl, rfl⟩
  · intro hm hp hj
    rw [fetch_post request env now hm hp, post_null request env now hj]
    exact ⟨rfl, ⟨_, rfl⟩, rfl, rfl⟩
  · intro e body text values hm hp hj hn he hmsg htext ht hb hf
    rw [fetch_post request env now hm hp,
      post_insert_failed request env now body text e values hj hn he hmsg htext ht hb hf]
    exact ⟨rfl, rfl, rfl⟩
  · intro e body text hm hp hj hn he hmsg htext ht hb
    rw [fetch_post request env now hm hp,
      post_bind_failed request env now body text e hj hn he hmsg htext ht hb]
    exact ⟨rfl, rfl, rfl, rfl⟩
  · intro e body hm hp hj hn he hmsg htext
    rw [fetch_post request env now hm hp,
      post_text_thrown request env now body e hj hn he hmsg htext]
    exact ⟨rfl, rfl, rfl, rfl⟩
  · intro thrown hm hp ht
    rw [fetch_get request env now hm hp]
    simp [handleGetMessages, ht, newResponse]
  · intro thrown hm hp ht
    rw [fetch_post request env now hm hp]
    simp [handlePostMessage, ht, newResponse]

/-- C10, as amended: every row present before a request is present and
unchanged after it, in its place: the table afterwards is the table before, or
the table before with one row appended.  A row is appended only by a
`POST /api/messages` whose body passes both checks and whose insert succeeds,
and always then.  Its `created_at` is the ISO-8601 UTC text of the clock
reading of the handler; its email is the submitted email, a string that
matches the pattern; its name and its message are the submitted values when
these are non-empty strings or arrays of bytes, while a submitted `true` is
kept as the text `1.0` and a number as the text of its value. -/
theorem table_grows_only_by_accepted_submission (request : Request) (env : Env) (now : Nat) :
    ((fetch request env now).messages = env.User_Aminoac.messages ∨
      ∃ row, (fetch request env now).messages = env.User_Aminoac.messages ++ [row]) ∧
    (∀ row, (fetch request env now).messages = env.User_Aminoac.messages ++ [row] →
      request.method = "POST" ∧ request.url.pathname = "/api/messages" ∧
      env.User_Aminoac.failure = none ∧
      row.created_at = toISOString now ∧
      ∃ body email, request.json = .ok body ∧
        body.prop "email" = some (.str email) ∧ row.email = .str email ∧
        emailRegex.test email = true ∧ strictEmailShape email ∧
        KeptAs (body.prop "name") row.name ∧ KeptAs (body.prop "message") row.message) ∧
    (∀ body name email message, request.method = "POST" →
      request.url.pathname = "/api/messages" → request.json = .ok body →
      body.prop "name" = some (.str name) → name ≠ "" →
      body.prop "email" = some (.str email) → emailRegex.test email = true →
      body.prop "message" = some (.str message) → message ≠ "" →
      env.User_Aminoac.failure = none →
      ∃ id, (fetch request env now).messages =
        env.User_Aminoac.messages ++
          [⟨id, .str name, .str email, .str message, toISOString now⟩]) ∧
    (∀ body text values, request.method = "POST" →
      request.url.pathname = "/api/messages" → request.json = .ok body →
      truthy (body.prop "name") = true → truthy (body.prop "email") = true →
      truthy (body.prop "message") = true →
      toText (body.prop "email") = .ok text → emailRegex.test text = true →
      D1Database.bind (body.prop "name") (body.prop "email") (body.prop "message")
        (toISOString now) = .ok values →
      env.User_Aminoac.failure = none →
      ∃ row, (fetch request env now).messages = env.User_Aminoac.messages ++ [row] ∧
        (fetch request env now).messages.length = env.User_Aminoac.messages.length + 1) := by
  have hsame : ∀ row : Row, ∀ t : Table, t = t ++ [row] → False := by
    intro row t h
    have h2 := congrArg List.length h
    simp at h2
  refine ⟨?_, ?_, ?_, ?_⟩
  · rcases messages_cases request env now with h |
      ⟨-, -, -, body, text, values, -, -, -, -, -, -, -, h⟩
    · exact Or.inl h
    · exact Or.inr ⟨_, h⟩
  · intro row hrow
    rcases messages_cases request env now with h |
      ⟨hm, hp, hf, body, text, values, hj, hn, he, hmsg, htext, ht, hb, h⟩
    · rw [h] at hrow
      exact (hsame row env.User_Aminoac.messages hrow).elim
    rw [h] at hrow
    have hrow2 := List.append_cancel_left hrow
    rw [List.cons.injEq] at hrow2
    obtain ⟨hrow3, -⟩ := hrow2
    subst hrow3
    obtain ⟨hb1, hb2, hb3, -⟩ := (bind_ok_iff _ _ _ _ values).mp hb
    obtain ⟨hstr, hbound⟩ := email_is_string _ text _ he htext ht hb2
    refine ⟨hm, hp, hf, rfl, body, text, hj, hstr, ?_, ht, (emailRegex_test_iff text).mp ht,
      keptAs_of_bound _ _ hn hb1, keptAs_of_bound _ _ hmsg hb3⟩
    show stored values.2.1 = .str text
    rw [hbound]
    rfl
  · intro body name email message hm hp hj hname hname_ne hemail hvalid hmessage hmessage_ne hf
    have hn : truthy (body.prop "name") = true := by
      rw [hname]; simpa [truthy, Json.truthy] using hname_ne
    have hmsg : truthy (body.prop "message") = true := by
      rw [hmessage]; simpa [truthy, Json.truthy] using hmessage_ne
    have hne : email ≠ "" := by
      rintro rfl
      revert hvalid
      decide
    have he : truthy (body.prop "email") = true := by
      rw [hemail]; simpa [truthy, Json.truthy] using hne
    have htext : toText (body.prop "email") = .ok email := by rw [hemail]; rfl
    have hb : D1Database.bind (body.prop "name") (body.prop "email") (body.prop "message")
        (toISOString now) = .ok (.str name, .str email, .str message, toISOString now) := by
      rw [hname, hemail, hmessage]; rfl
    rw [fetch_post request env now hm hp,
      post_created request env now body email _ hj hn he hmsg htext hvalid hb hf]
    exact ⟨_, rfl⟩
  · intro body text values hm hp hj hn he hmsg htext ht hb hf
    rw [fetch_post request env now hm hp,
      post_created request env now body text values hj hn he hmsg htext ht hb hf]
    exact ⟨_, rfl, by simp⟩

/-- C10, counterexample: the submission whose name is the empty array passes
both checks (an array is truthy) and, the insert succeeding, the handler
stores a row whose name is the empty array; and the submission whose name is
`true` is stored under the name `1.0`, which is not the submitted value. -/
theorem row_with_empty_name_stored :
    (fetch (postOf (.obj [("name", .arr []), ("email", .str "a@b.c"), ("message", .str "Hi")]))
      emptyEnv 0).response.status = 201 ∧
    (fetch (postOf (.obj [("name", .arr []), ("email", .str "a@b.c"), ("message", .str "Hi")]))
      emptyEnv 0).messages =
      [⟨1, .arr [], .str "a@b.c", .str "Hi", "1970-01-01T00:00:00.000Z"⟩] ∧
    (fetch (postOf (.obj [("name", .bool true), ("email", .str "a@b.c"),
      ("message", .str "Hi")])) emptyEnv 0).response.status = 201 ∧
    (fetch (postOf (.obj [("name", .bool true), ("email", .str "a@b.c"),
      ("message", .str "Hi")])) emptyEnv 0).messages =
      [⟨1, .str "1.0", .str "a@b.c", .str "Hi", "1970-01-01T00:00:00.000Z"⟩] :=
  ⟨by decide, rfl, by decide, rfl⟩

end MessageBoard
